import Mathlib

/-!
Verification of the clio harvesting core against its specification.

Each section shallowly embeds one component of the repository:
the crawl queue (src/storage/database.py, src/api/traversal.py),
the governed request path (src/api/client.py), the tiered cache
(src/api/intelligent_cache.py) and the cursor paginator
(src/utils/pagination.py).  Definitions mirror the source; theorems
settle the spec claims.
-/

/-! ## Crawl queue model

Embeds the `crawl_queue` table of src/storage/database.py (lines 229-244)
and the queue operations `add_to_crawl_queue`, `get_next_crawl_item`,
`update_crawl_status`, `reset_failed_items` (lines 836-928).  The table is
modelled as a list of rows; `discovered_at` timestamps are Nat.
-/

inductive CrawlStatus
  | queued
  | processing
  | completed
  | failed
deriving DecidableEq, Repr

structure QueueItem where
  url : String
  record_id : String
  status : CrawlStatus
  discovered_at : Nat
  processed_at : Option Nat
  retries : Nat
  error_message : Option String
  parent_id : Option String
  expected_level : Option String
deriving DecidableEq, Repr

abbrev CrawlQueue := List QueueItem

def queue_urls (q : CrawlQueue) : List String :=
  q.map (fun i => i.url)

/-- Embeds `DatabaseManager.add_to_crawl_queue` (database.py 836-849):
`INSERT OR IGNORE` keyed on the `url` primary key, defaults
`status = QUEUED`, `retries = 0`, `discovered_at = CURRENT_TIMESTAMP`
(passed in as `now`).  Returns the new table and `rowcount > 0`. -/
def add_to_crawl_queue (q : CrawlQueue) (url record_id : String)
    (parent_id expected_level : Option String) (now : Nat) : CrawlQueue × Bool :=
  if url ∈ queue_urls q then (q, false)
  else
    (q ++ [{ url := url, record_id := record_id, status := .queued,
             discovered_at := now, processed_at := none, retries := 0,
             error_message := none, parent_id := parent_id,
             expected_level := expected_level }], true)

/-- Embeds `DatabaseManager.get_next_crawl_item` (database.py 851-866):
`SELECT * FROM crawl_queue WHERE status = QUEUED ORDER BY discovered_at ASC
LIMIT 1`.  A pure read: the table is not modified.  Ties on
`discovered_at` resolve to the first row, a determinization of the
unspecified SQLite tie order. -/
def get_next_crawl_item (q : CrawlQueue) : Option QueueItem :=
  match q.filter (fun i => i.status = .queued) with
  | [] => none
  | x :: xs =>
      some (xs.foldl (fun best i =>
        if i.discovered_at < best.discovered_at then i else best) x)

/-- The per-row effect of `DatabaseManager.update_crawl_status`
(database.py 868-893): COMPLETED also sets `processed_at`; FAILED also
increments `retries`; any other status (the else branch, used for
PROCESSING) sets the status column only. -/
def applyStatusUpdate (status : CrawlStatus) (error_message : Option String)
    (now : Nat) (i : QueueItem) : QueueItem :=
  match status with
  | .completed => { i with status := .completed, processed_at := some now,
                           error_message := error_message }
  | .failed => { i with status := .failed, retries := i.retries + 1,
                        error_message := error_message }
  | s => { i with status := s }

/-- Embeds `DatabaseManager.update_crawl_status` (database.py 868-893):
an UPDATE on every row whose `url` matches; returns `rowcount > 0`. -/
def update_crawl_status (q : CrawlQueue) (url : String) (status : CrawlStatus)
    (error_message : Option String) (now : Nat) : CrawlQueue × Bool :=
  (q.map (fun i => if i.url = url then applyStatusUpdate status error_message now i else i),
   decide (url ∈ queue_urls q))

/-- Embeds `DatabaseManager.reset_failed_items` (database.py 916-928):
`UPDATE crawl_queue SET status = QUEUED, error_message = NULL WHERE
status = FAILED AND retries < max_retries`; returns the rowcount. -/
def reset_failed_items (q : CrawlQueue) (max_retries : Nat) : CrawlQueue × Nat :=
  (q.map (fun i =>
      if i.status = .failed ∧ i.retries < max_retries then
        { i with status := .queued, error_message := none }
      else i),
   (q.filter (fun i => i.status = .failed ∧ i.retries < max_retries)).length)

def CO_DEPARTMENT_ID : String := "C57"

def CO_BASE_URL : String := "https://discovery.nationalarchives.gov.uk/details/r/"

/-- Embeds everything `HierarchicalTraverser.start_co_traversal`
(traversal.py 66-110) does to the queue before its first claim: it seeds
the CO department root via `add_to_crawl_queue` and then enters
`_execute_traversal_loop`.  No other queue operation happens before the
loop; in particular there is no Processing-to-Queued reset. -/
def start_co_traversal_preloop (q : CrawlQueue) (now : Nat) : CrawlQueue :=
  (add_to_crawl_queue q (CO_BASE_URL ++ CO_DEPARTMENT_ID) CO_DEPARTMENT_ID
    none (some "Department") now).1

/-- Embeds the head of one iteration of
`HierarchicalTraverser._execute_traversal_loop` (traversal.py 162-196):
fetch the next queued item with `get_next_crawl_item`, then - in a
separate statement - mark it COMPLETED when already processed, else mark
it PROCESSING via `update_crawl_status`. -/
def traversal_claim_step (q : CrawlQueue) (processed_urls : List String)
    (now : Nat) : Option QueueItem × CrawlQueue :=
  match get_next_crawl_item q with
  | none => (none, q)
  | some item =>
      if item.url ∈ processed_urls then
        (some item, (update_crawl_status q item.url .completed (some "Already processed") now).1)
      else
        (some item, (update_crawl_status q item.url .processing none now).1)

structure EnqueueArgs where
  url : String
  record_id : String
  parent_id : Option String
  expected_level : Option String
  now : Nat
deriving DecidableEq, Repr

/-- A sequence of `add_to_crawl_queue` calls, folded over the table. -/
def enqueue_all (q : CrawlQueue) (ops : List EnqueueArgs) : CrawlQueue :=
  ops.foldl
    (fun acc a => (add_to_crawl_queue acc a.url a.record_id a.parent_id a.expected_level a.now).1)
    q

/-! ### Queue lemmas -/

theorem queue_urls_add (q : CrawlQueue) (url record_id : String)
    (parent_id expected_level : Option String) (now : Nat) :
    queue_urls (add_to_crawl_queue q url record_id parent_id expected_level now).1
      = if url ∈ queue_urls q then queue_urls q else queue_urls q ++ [url] := by
  unfold add_to_crawl_queue
  by_cases h : url ∈ queue_urls q
  · rw [if_pos h, if_pos h]
  · rw [if_neg h, if_neg h]
    simp [queue_urls]

theorem mem_queue_urls_add (q : CrawlQueue) (a : EnqueueArgs) :
    a.url ∈ queue_urls (add_to_crawl_queue q a.url a.record_id a.parent_id a.expected_level a.now).1 := by
  rw [queue_urls_add]
  by_cases h : a.url ∈ queue_urls q
  · rw [if_pos h]
    exact h
  · rw [if_neg h]
    exact List.mem_append_right _ (List.mem_singleton.mpr rfl)

theorem queue_urls_add_mono (q : CrawlQueue) (u : String) (a : EnqueueArgs)
    (h : u ∈ queue_urls q) :
    u ∈ queue_urls (add_to_crawl_queue q a.url a.record_id a.parent_id a.expected_level a.now).1 := by
  rw [queue_urls_add]
  by_cases hm : a.url ∈ queue_urls q
  · rw [if_pos hm]
    exact h
  · rw [if_neg hm]
    exact List.mem_append_left _ h

theorem queue_urls_add_nodup (q : CrawlQueue) (a : EnqueueArgs)
    (h : (queue_urls q).Nodup) :
    (queue_urls (add_to_crawl_queue q a.url a.record_id a.parent_id a.expected_level a.now).1).Nodup := by
  rw [queue_urls_add]
  by_cases hm : a.url ∈ queue_urls q
  · rw [if_pos hm]
    exact h
  · rw [if_neg hm]
    exact List.Nodup.append h (List.nodup_singleton _)
      (fun x hx hx2 => hm ((List.mem_singleton.mp hx2) ▸ hx))

theorem enqueue_all_nodup (ops : List EnqueueArgs) :
    ∀ q : CrawlQueue, (queue_urls q).Nodup → (queue_urls (enqueue_all q ops)).Nodup := by
  induction ops with
  | nil => exact fun q h => h
  | cons a rest ih => exact fun q h => ih _ (queue_urls_add_nodup q a h)

theorem enqueue_all_mono (ops : List EnqueueArgs) :
    ∀ (q : CrawlQueue) (u : String), u ∈ queue_urls q → u ∈ queue_urls (enqueue_all q ops) := by
  induction ops with
  | nil => exact fun q u h => h
  | cons a rest ih => exact fun q u h => ih _ u (queue_urls_add_mono q u a h)

theorem enqueue_all_mem (ops : List EnqueueArgs) (a : EnqueueArgs) (h : a ∈ ops) :
    ∀ q : CrawlQueue, a.url ∈ queue_urls (enqueue_all q ops) := by
  induction ops with
  | nil => cases h
  | cons b rest ih =>
      intro q
      rcases List.mem_cons.mp h with h1 | h1
      · exact enqueue_all_mono rest _ a.url (h1 ▸ mem_queue_urls_add q a)
      · exact ih h1 _

/-- C9, confirmed: enqueue is idempotent by key.  Starting from a table
with no duplicate urls, any sequence of `add_to_crawl_queue` calls leaves
exactly one row per distinct url (the url list stays duplicate-free, and
every requested url is present); re-adding a url that is already present
returns the table unchanged together with `false` (AlreadyPresent). -/
theorem enqueue_idempotent_per_key (q : CrawlQueue) (ops : List EnqueueArgs)
    (hnd : (queue_urls q).Nodup) :
    (queue_urls (enqueue_all q ops)).Nodup ∧
    (∀ a ∈ ops, a.url ∈ queue_urls (enqueue_all q ops)) ∧
    (∀ a : EnqueueArgs, a.url ∈ queue_urls q →
      add_to_crawl_queue q a.url a.record_id a.parent_id a.expected_level a.now = (q, false)) := by
  refine ⟨enqueue_all_nodup ops q hnd, fun a ha => enqueue_all_mem ops a ha q, fun a ha => ?_⟩
  unfold add_to_crawl_queue
  rw [if_pos ha]

/-- Witness for C9 at a concrete input: two enqueues of the same url. -/
theorem enqueue_idempotent_per_key_witness :
    (queue_urls (enqueue_all []
        [⟨"u1", "r1", none, none, 0⟩, ⟨"u1", "r1", none, none, 1⟩])).Nodup ∧
    (∀ a ∈ ([⟨"u1", "r1", none, none, 0⟩, ⟨"u1", "r1", none, none, 1⟩] : List EnqueueArgs),
      a.url ∈ queue_urls (enqueue_all []
        [⟨"u1", "r1", none, none, 0⟩, ⟨"u1", "r1", none, none, 1⟩])) ∧
    (∀ a : EnqueueArgs, a.url ∈ queue_urls ([] : CrawlQueue) →
      add_to_crawl_queue [] a.url a.record_id a.parent_id a.expected_level a.now
        = ([], false)) :=
  enqueue_idempotent_per_key []
    [⟨"u1", "r1", none, none, 0⟩, ⟨"u1", "r1", none, none, 1⟩] (by decide)

/-! ### C1: markFailed and re-queueing -/

/-- C1, counterexample: one item, `maxRetries = 3`.  `update_crawl_status`
with FAILED leaves `retries = 1 < 3` but the status is FAILED, not
QUEUED: `markFailed` alone never transitions an item back to QUEUED. -/
theorem markFailed_does_not_requeue :
    (update_crawl_status
        [⟨"u", "r", .processing, 0, none, 0, none, none, none⟩]
        "u" .failed (some "boom") 1).1
      = [⟨"u", "r", .failed, 0, none, 1, some "boom", none, none⟩] ∧
    (1 : Nat) < 3 ∧ CrawlStatus.failed ≠ CrawlStatus.queued := by
  refine ⟨?_, by decide, by decide⟩
  rfl

/-- C1, amended: `update_crawl_status FAILED` sets the status to FAILED
and increments `retries` by exactly one; the transition back to QUEUED is
performed only by the separate `reset_failed_items` sweep, which
re-queues exactly the FAILED items with `retries < max_retries` and
leaves every other item unchanged - so an item whose `retries` has
reached `max_retries` stays FAILED and is never returned to QUEUED by
the sweep. -/
theorem markFailed_increments_and_reset_requeues (q : CrawlQueue) (url : String)
    (em : Option String) (now max_retries : Nat) :
    (∀ i ∈ q, i.url = url →
      ({ i with status := .failed, retries := i.retries + 1, error_message := em } : QueueItem)
        ∈ (update_crawl_status q url .failed em now).1) ∧
    (∀ i ∈ q, i.status = .failed → i.retries < max_retries →
      ({ i with status := .queued, error_message := none } : QueueItem)
        ∈ (reset_failed_items q max_retries).1) ∧
    (∀ i ∈ q, i.status = .failed → max_retries ≤ i.retries →
      i ∈ (reset_failed_items q max_retries).1) ∧
    (∀ i ∈ q, i.status ≠ .failed → i ∈ (reset_failed_items q max_retries).1) := by
  refine ⟨fun i hi hurl => ?_, fun i hi hst hlt => ?_, fun i hi hst hge => ?_, fun i hi hst => ?_⟩
  · have := List.mem_map_of_mem
      (fun i => if i.url = url then applyStatusUpdate .failed em now i else i) hi
    simpa [update_crawl_status, applyStatusUpdate, hurl] using this
  · have := List.mem_map_of_mem
      (fun i => if i.status = .failed ∧ i.retries < max_retries then
        ({ i with status := .queued, error_message := none } : QueueItem) else i) hi
    simpa [reset_failed_items, hst, hlt] using this
  · have := List.mem_map_of_mem
      (fun i => if i.status = .failed ∧ i.retries < max_retries then
        ({ i with status := .queued, error_message := none } : QueueItem) else i) hi
    simpa [reset_failed_items, hst, Nat.not_lt.mpr hge] using this
  · have := List.mem_map_of_mem
      (fun i => if i.status = .failed ∧ i.retries < max_retries then
        ({ i with status := .queued, error_message := none } : QueueItem) else i) hi
    simpa [reset_failed_items, hst] using this

/-- Witness for C1 at a concrete table: one processing item that gets
marked FAILED, one failed item below the retry bound, one at the bound. -/
theorem markFailed_increments_and_reset_requeues_witness :
    (({ url := "u", record_id := "r", status := .failed, discovered_at := 0,
        processed_at := none, retries := 1, error_message := some "e",
        parent_id := none, expected_level := none } : QueueItem)
      ∈ (update_crawl_status
          [⟨"u", "r", .processing, 0, none, 0, none, none, none⟩,
           ⟨"v", "s", .failed, 1, none, 1, some "x", none, none⟩,
           ⟨"w", "t", .failed, 2, none, 3, some "y", none, none⟩]
          "u" .failed (some "e") 9).1) ∧
    (({ url := "v", record_id := "s", status := .queued, discovered_at := 1,
        processed_at := none, retries := 1, error_message := none,
        parent_id := none, expected_level := none } : QueueItem)
      ∈ (reset_failed_items
          [⟨"u", "r", .processing, 0, none, 0, none, none, none⟩,
           ⟨"v", "s", .failed, 1, none, 1, some "x", none, none⟩,
           ⟨"w", "t", .failed, 2, none, 3, some "y", none, none⟩] 3).1) ∧
    (⟨"w", "t", .failed, 2, none, 3, some "y", none, none⟩ : QueueItem)
      ∈ (reset_failed_items
          [⟨"u", "r", .processing, 0, none, 0, none, none, none⟩,
           ⟨"v", "s", .failed, 1, none, 1, some "x", none, none⟩,
           ⟨"w", "t", .failed, 2, none, 3, some "y", none, none⟩] 3).1 := by
  refine ⟨?_, ?_, ?_⟩
  · exact (markFailed_increments_and_reset_requeues
      [⟨"u", "r", .processing, 0, none, 0, none, none, none⟩,
       ⟨"v", "s", .failed, 1, none, 1, some "x", none, none⟩,
       ⟨"w", "t", .failed, 2, none, 3, some "y", none, none⟩]
      "u" (some "e") 9 3).1
      ⟨"u", "r", .processing, 0, none, 0, none, none, none⟩ (by decide) rfl
  · exact (markFailed_increments_and_reset_requeues
      [⟨"u", "r", .processing, 0, none, 0, none, none, none⟩,
       ⟨"v", "s", .failed, 1, none, 1, some "x", none, none⟩,
       ⟨"w", "t", .failed, 2, none, 3, some "y", none, none⟩]
      "u" (some "e") 9 3).2.1
      ⟨"v", "s", .failed, 1, none, 1, some "x", none, none⟩ (by decide) rfl (by decide)
  · exact (markFailed_increments_and_reset_requeues
      [⟨"u", "r", .processing, 0, none, 0, none, none, none⟩,
       ⟨"v", "s", .failed, 1, none, 1, some "x", none, none⟩,
       ⟨"w", "t", .failed, 2, none, 3, some "y", none, none⟩]
      "u" (some "e") 9 3).2.2.1
      ⟨"w", "t", .failed, 2, none, 3, some "y", none, none⟩ (by decide) rfl (by decide)

/-! ### C2: claiming is select-then-update, not atomic -/

/-- C2, counterexample: `get_next_crawl_item` is a pure SELECT.  On a
table with a single queued item it returns that item while the stored
status is still QUEUED, not PROCESSING - the claim-and-transition is not
one operation. -/
theorem claimNext_not_atomic :
    get_next_crawl_item [⟨"u", "r", .queued, 0, none, 0, none, none, none⟩]
      = some ⟨"u", "r", .queued, 0, none, 0, none, none, none⟩ ∧
    CrawlStatus.queued ≠ CrawlStatus.processing := by
  exact ⟨rfl, by decide⟩

theorem foldl_min_mem (xs : List QueueItem) :
    ∀ x : QueueItem,
      xs.foldl (fun best i => if i.discovered_at < best.discovered_at then i else best) x
        ∈ x :: xs := by
  induction xs with
  | nil => exact fun x => List.mem_singleton.mpr rfl
  | cons y ys ih =>
      intro x
      rw [List.foldl_cons]
      by_cases h : y.discovered_at < x.discovered_at
      · rw [if_pos h]
        rcases List.mem_cons.mp (ih y) with h1 | h1
        · rw [h1]
          exact List.mem_cons_of_mem _ (List.mem_cons_self _ _)
        · exact List.mem_cons_of_mem _ (List.mem_cons_of_mem _ h1)
      · rw [if_neg h]
        rcases List.mem_cons.mp (ih x) with h1 | h1
        · rw [h1]
          exact List.mem_cons_self _ _
        · exact List.mem_cons_of_mem _ (List.mem_cons_of_mem _ h1)

theorem foldl_min_le (xs : List QueueItem) :
    ∀ x : QueueItem, ∀ y ∈ x :: xs,
      (xs.foldl (fun best i => if i.discovered_at < best.discovered_at then i else best) x).discovered_at
        ≤ y.discovered_at := by
  induction xs with
  | nil =>
      intro x y hy
      rcases List.mem_singleton.mp hy with rfl
      exact le_refl _
  | cons z zs ih =>
      intro x y hy
      rw [List.foldl_cons]
      rcases List.mem_cons.mp hy with h1 | h1
      · rw [h1]
        by_cases h : z.discovered_at < x.discovered_at
        · rw [if_pos h]
          exact le_trans (ih z z (List.mem_cons_self _ _)) (le_of_lt h)
        · rw [if_neg h]
          exact ih x x (List.mem_cons_self _ _)
      · rcases List.mem_cons.mp h1 with h2 | h2
        · rw [h2]
          by_cases h : z.discovered_at < x.discovered_at
          · rw [if_pos h]
            exact ih z z (List.mem_cons_self _ _)
          · rw [if_neg h]
            exact le_trans (ih x x (List.mem_cons_self _ _)) (Nat.not_lt.mp h)
        · by_cases h : z.discovered_at < x.discovered_at
          · rw [if_pos h]
            exact ih z y (List.mem_cons_of_mem _ h2)
          · rw [if_neg h]
            exact ih x y (List.mem_cons_of_mem _ h2)

/-- C2, amended: `get_next_crawl_item` selects (without any transition) a
QUEUED item of minimal `discovered_at`; the traversal loop then marks it
PROCESSING in a separate, subsequent `update_crawl_status` call, after
which every row with that url carries status PROCESSING.  The claim is
read-then-update, not a single atomic compare-and-swap. -/
theorem claimNext_select_then_update (q : CrawlQueue) (processed_urls : List String)
    (now : Nat) (item : QueueItem) (h : get_next_crawl_item q = some item) :
    item.status = .queued ∧ item ∈ q ∧
    (∀ j ∈ q, j.status = .queued → item.discovered_at ≤ j.discovered_at) ∧
    (item.url ∉ processed_urls →
      (traversal_claim_step q processed_urls now).2
        = (update_crawl_status q item.url .processing none now).1) ∧
    (∀ j ∈ (update_crawl_status q item.url .processing none now).1,
      j.url = item.url → j.status = .processing) := by
  have hsel : item.status = .queued ∧ item ∈ q ∧
      (∀ j ∈ q, j.status = .queued → item.discovered_at ≤ j.discovered_at) := by
    unfold get_next_crawl_item at h
    cases hq : q.filter (fun i => i.status = .queued) with
    | nil =>
        rw [hq] at h
        cases h
    | cons x xs =>
        rw [hq] at h
        have hitem : xs.foldl (fun best i =>
            if i.discovered_at < best.discovered_at then i else best) x = item := by
          simpa using h
        subst hitem
        have hmem : _ ∈ x :: xs := foldl_min_mem xs x
        have hfilter : _ ∈ q.filter (fun i => i.status = .queued) := hq ▸ hmem
        have hmf := List.mem_filter.mp hfilter
        refine ⟨by simpa using hmf.2, hmf.1, ?_⟩
        intro j hj hjst
        have hjf : j ∈ q.filter (fun i => i.status = .queued) :=
          List.mem_filter.mpr ⟨hj, by simpa using hjst⟩
        rw [hq] at hjf
        exact foldl_min_le xs x j hjf
  refine ⟨hsel.1, hsel.2.1, hsel.2.2, ?_, ?_⟩
  · intro hnp
    unfold traversal_claim_step
    rw [h]
    simp [hnp]
  · intro j hj hjurl
    unfold update_crawl_status at hj
    rcases List.mem_map.mp hj with ⟨i0, hi0, hmap⟩
    by_cases hurl : i0.url = item.url
    · rw [if_pos hurl] at hmap
      rw [← hmap]
      rfl
    · rw [if_neg hurl] at hmap
      exact absurd (hmap ▸ hjurl) hurl

/-- Witness for C2 at a concrete table with two queued items. -/
theorem claimNext_select_then_update_witness :
    (⟨"a", "r1", .queued, 3, none, 0, none, none, none⟩ : QueueItem).status = .queued ∧
    (⟨"a", "r1", .queued, 3, none, 0, none, none, none⟩ : QueueItem)
      ∈ ([⟨"a", "r1", .queued, 3, none, 0, none, none, none⟩,
          ⟨"b", "r2", .queued, 7, none, 0, none, none, none⟩] : CrawlQueue) ∧
    (∀ j ∈ ([⟨"a", "r1", .queued, 3, none, 0, none, none, none⟩,
             ⟨"b", "r2", .queued, 7, none, 0, none, none, none⟩] : CrawlQueue),
      j.status = .queued →
      (⟨"a", "r1", .queued, 3, none, 0, none, none, none⟩ : QueueItem).discovered_at
        ≤ j.discovered_at) ∧
    ((⟨"a", "r1", .queued, 3, none, 0, none, none, none⟩ : QueueItem).url ∉ ([] : List String) →
      (traversal_claim_step
          [⟨"a", "r1", .queued, 3, none, 0, none, none, none⟩,
           ⟨"b", "r2", .queued, 7, none, 0, none, none, none⟩] [] 9).2
        = (update_crawl_status
            [⟨"a", "r1", .queued, 3, none, 0, none, none, none⟩,
             ⟨"b", "r2", .queued, 7, none, 0, none, none, none⟩]
            (⟨"a", "r1", .queued, 3, none, 0, none, none, none⟩ : QueueItem).url
            .processing none 9).1) ∧
    (∀ j ∈ (update_crawl_status
          [⟨"a", "r1", .queued, 3, none, 0, none, none, none⟩,
           ⟨"b", "r2", .queued, 7, none, 0, none, none, none⟩]
          (⟨"a", "r1", .queued, 3, none, 0, none, none, none⟩ : QueueItem).url
          .processing none 9).1,
      j.url = (⟨"a", "r1", .queued, 3, none, 0, none, none, none⟩ : QueueItem).url →
      j.status = .processing) :=
  claimNext_select_then_update
    [⟨"a", "r1", .queued, 3, none, 0, none, none, none⟩,
     ⟨"b", "r2", .queued, 7, none, 0, none, none, none⟩] [] 9
    ⟨"a", "r1", .queued, 3, none, 0, none, none, none⟩ (by decide)

/-! ### C5: no orphan recovery at startup -/

/-- C5: evaluating `start_co_traversal` at the failing input.  One item is
left over in status PROCESSING; the entry point seeds the root and enters
the loop without any Processing-to-Queued reset, so the orphan is still
PROCESSING when claiming starts, and the first claim does not return it
(claims select only QUEUED rows) - contrary to the recover-orphans
obligation.  (The sibling entry point `resume_traversal`, traversal.py
431-444, does attempt the reset but invokes `self.db_manager.execute`, a
method `DatabaseManager` does not define, so it raises instead of
recovering.) -/
theorem start_co_traversal_leaves_orphan_processing :
    (⟨"https://discovery.nationalarchives.gov.uk/details/r/C100", "C100",
        .processing, 0, none, 0, none, none, none⟩ : QueueItem)
      ∈ start_co_traversal_preloop
          [⟨"https://discovery.nationalarchives.gov.uk/details/r/C100", "C100",
            .processing, 0, none, 0, none, none, none⟩] 5 ∧
    (⟨"https://discovery.nationalarchives.gov.uk/details/r/C100", "C100",
        .processing, 0, none, 0, none, none, none⟩ : QueueItem).status = .processing ∧
    get_next_crawl_item (start_co_traversal_preloop
        [⟨"https://discovery.nationalarchives.gov.uk/details/r/C100", "C100",
          .processing, 0, none, 0, none, none, none⟩] 5)
      ≠ some ⟨"https://discovery.nationalarchives.gov.uk/details/r/C100", "C100",
          .processing, 0, none, 0, none, none, none⟩ := by
  refine ⟨?_, rfl, ?_⟩ <;> decide

/-! ## Governed request path

Embeds `DiscoveryClient` of src/api/client.py: the rate-ledger checks
`_check_5min_limit` (142-153) and `_check_daily_limit` (155-165), the
dispatch-and-classify body `_make_request_internal` (167-268), and the
retry wrapper `_exponential_backoff_retry` (94-140).  Wall-clock times
are rationals (seconds); the HTTP layer is abstracted as an outcome the
transport produces for the dispatched call.
-/

structure RateState where
  requests_in_5min : Nat
  last_5min_window : ℚ
  daily_request_count : Nat
  daily_reset_time : ℚ
deriving DecidableEq, Repr

/-- Embeds `_check_5min_limit` (client.py 142-153): reset the window
counter when 300 seconds have elapsed, then pass iff the counter is
below the configured ceiling (a failed check raises RateLimitError). -/
def check_5min_limit (max_requests_per_5min : Nat) (now : ℚ) (s : RateState) :
    RateState × Bool :=
  let s1 := if now - s.last_5min_window ≥ 300 then
      { s with requests_in_5min := 0, last_5min_window := now }
    else s
  (s1, decide (s1.requests_in_5min < max_requests_per_5min))

/-- Embeds `_check_daily_limit` (client.py 155-165): reset the daily
counter when a day has passed since `daily_reset_time` (which is then
set to the current midnight), then pass iff the counter is below the
hard-coded 3000 daily ceiling. -/
def check_daily_limit (now : ℚ) (s : RateState) : RateState × Bool :=
  let s1 := if now ≥ s.daily_reset_time + 86400 then
      { s with daily_request_count := 0,
               daily_reset_time := (86400 : ℚ) * (⌊now / 86400⌋ : ℤ) }
    else s
  (s1, decide (s1.daily_request_count < 3000))

/-- What the transport does for one dispatched call of
`self.session.get` inside `_make_request_internal`. -/
inductive HttpOutcome
  | response (status : Nat) (parseOk : Bool)
  | timeout
  | connError
  | reqError
deriving DecidableEq, Repr

/-- The exception class `_make_request_internal` surfaces. -/
inductive ReqResult
  | ok
  | rateLimitError
  | authenticationError
  | permanentError
  | transientError
  | parsingError
deriving DecidableEq, Repr

/-- Embeds the status handling of `_make_request_internal` (client.py
190-255): the explicit `error_mapping` table, the generic 4xx branch,
`raise_for_status` (whose HTTPError on a remaining 5xx is caught by the
RequestException handler and re-raised as TransientError), and the JSON
parse step. -/
def classifyResponse (status : Nat) (parseOk : Bool) : ReqResult :=
  if status = 204 then .permanentError
  else if status = 401 ∨ status = 403 then .authenticationError
  else if status = 404 then .permanentError
  else if status = 429 then .rateLimitError
  else if status = 500 ∨ status = 503 then .transientError
  else if 400 ≤ status ∧ status < 500 then .permanentError
  else if 500 ≤ status ∧ status < 600 then .transientError
  else if parseOk then .ok else .parsingError

/-- Embeds `_make_request_internal` (client.py 167-268).  The returned
Bool records whether the network call was actually dispatched.  The two
ledger counters are incremented (lines 183-185) only after
`self.session.get` returns a response object; a Timeout,
ConnectionError or other RequestException jumps to the handlers at
lines 257-268 without passing the increment. -/
def make_request_internal (max_requests_per_5min : Nat) (now : ℚ)
    (outcome : HttpOutcome) (s : RateState) : RateState × ReqResult × Bool :=
  let c5 := check_5min_limit max_requests_per_5min now s
  if c5.2 = true then
    let cd := check_daily_limit now c5.1
    if cd.2 = true then
      match outcome with
      | .response status parseOk =>
          ({ cd.1 with requests_in_5min := cd.1.requests_in_5min + 1,
                       daily_request_count := cd.1.daily_request_count + 1 },
           classifyResponse status parseOk, true)
      | .timeout => (cd.1, .transientError, true)
      | .connError => (cd.1, .transientError, true)
      | .reqError => (cd.1, .transientError, true)
    else (cd.1, .rateLimitError, false)
  else (c5.1, .rateLimitError, false)

/-- C3, counterexample: with fresh ledgers both rate checks pass and the
call is dispatched, but a timeout leaves both counters un-incremented -
a dispatched attempt that consumed no budget, contrary to the claim that
every dispatched attempt increments the ledgers exactly once. -/
theorem ledgers_not_incremented_on_timeout :
    (make_request_internal 3000 10 .timeout ⟨0, 0, 0, 0⟩).2.2 = true ∧
    (make_request_internal 3000 10 .timeout ⟨0, 0, 0, 0⟩).2.1 = .transientError ∧
    (make_request_internal 3000 10 .timeout ⟨0, 0, 0, 0⟩).1.requests_in_5min = 0 ∧
    (make_request_internal 3000 10 .timeout ⟨0, 0, 0, 0⟩).1.daily_request_count = 0 := by
  have h5 : check_5min_limit 3000 10 ⟨0, 0, 0, 0⟩ = (⟨0, 0, 0, 0⟩, true) := by
    simp only [check_5min_limit]
    rw [if_neg (by norm_num)]
    rfl
  have hd : check_daily_limit 10 ⟨0, 0, 0, 0⟩ = (⟨0, 0, 0, 0⟩, true) := by
    simp only [check_daily_limit]
    rw [if_neg (by norm_num)]
    rfl
  have hm : make_request_internal 3000 10 .timeout ⟨0, 0, 0, 0⟩
      = (⟨0, 0, 0, 0⟩, .transientError, true) := by
    simp only [make_request_internal]
    simp [h5, hd]
  rw [hm]
  exact ⟨rfl, rfl, rfl, rfl⟩

/-- C3, amended: the ledger counters are incremented exactly once when
and only when the dispatched call yields an HTTP response (whatever its
status); they are left unchanged both when the dispatch raises a
transport error (timeout, connection error, other request error) and
when the attempt is denied locally by the rate checks before dispatch
(the checks themselves only ever reset a counter to zero at a window
boundary, never increase it). -/
theorem ledger_increment_characterization (max_requests_per_5min : Nat) (now : ℚ)
    (outcome : HttpOutcome) (s : RateState) :
    ((check_5min_limit max_requests_per_5min now s).2 = false →
      make_request_internal max_requests_per_5min now outcome s
        = ((check_5min_limit max_requests_per_5min now s).1, .rateLimitError, false)) ∧
    ((check_5min_limit max_requests_per_5min now s).2 = true →
     (check_daily_limit now (check_5min_limit max_requests_per_5min now s).1).2 = false →
      make_request_internal max_requests_per_5min now outcome s
        = ((check_daily_limit now (check_5min_limit max_requests_per_5min now s).1).1,
           .rateLimitError, false)) ∧
    ((check_5min_limit max_requests_per_5min now s).2 = true →
     (check_daily_limit now (check_5min_limit max_requests_per_5min now s).1).2 = true →
      ∀ status parseOk, outcome = .response status parseOk →
      (make_request_internal max_requests_per_5min now outcome s).2.2 = true ∧
      (make_request_internal max_requests_per_5min now outcome s).1.requests_in_5min
        = (check_daily_limit now (check_5min_limit max_requests_per_5min now s).1).1.requests_in_5min + 1 ∧
      (make_request_internal max_requests_per_5min now outcome s).1.daily_request_count
        = (check_daily_limit now (check_5min_limit max_requests_per_5min now s).1).1.daily_request_count + 1) ∧
    ((check_5min_limit max_requests_per_5min now s).2 = true →
     (check_daily_limit now (check_5min_limit max_requests_per_5min now s).1).2 = true →
      (outcome = .timeout ∨ outcome = .connError ∨ outcome = .reqError) →
      (make_request_internal max_requests_per_5min now outcome s).2.2 = true ∧
      (make_request_internal max_requests_per_5min now outcome s).1
        = (check_daily_limit now (check_5min_limit max_requests_per_5min now s).1).1) ∧
    ((check_5min_limit max_requests_per_5min now s).1.requests_in_5min ≤ s.requests_in_5min ∧
     (check_daily_limit now (check_5min_limit max_requests_per_5min now s).1).1.daily_request_count
        ≤ s.daily_request_count) := by
  refine ⟨?_, ?_, ?_, ?_, ?_, ?_⟩
  · intro h5
    simp only [make_request_internal]
    rw [h5]
    simp
  · intro h5 hd
    simp only [make_request_internal]
    rw [h5, hd]
    simp
  · intro h5 hd status parseOk ho
    subst ho
    simp only [make_request_internal]
    rw [h5, hd]
    simp
  · intro h5 hd ho
    simp only [make_request_internal]
    rw [h5, hd]
    rcases ho with rfl | rfl | rfl <;> simp
  · unfold check_5min_limit
    by_cases h : now - s.last_5min_window ≥ 300
    · rw [if_pos h]
      exact Nat.zero_le _
    · rw [if_neg h]
  · unfold check_daily_limit check_5min_limit
    by_cases h : now - s.last_5min_window ≥ 300
    · rw [if_pos h]
      by_cases h2 : now ≥ s.daily_reset_time + 86400
      · rw [if_pos h2]
        exact Nat.zero_le _
      · rw [if_neg h2]
    · rw [if_neg h]
      by_cases h2 : now ≥ s.daily_reset_time + 86400
      · rw [if_pos h2]
        exact Nat.zero_le _
      · rw [if_neg h2]

/-- Witness for C3 instantiating the amended characterization on fresh
ledgers with a successful response outcome. -/
theorem ledger_increment_characterization_witness :
    (make_request_internal 3000 10 (.response 200 true) ⟨0, 0, 0, 0⟩).2.2 = true ∧
    (make_request_internal 3000 10 (.response 200 true) ⟨0, 0, 0, 0⟩).1.requests_in_5min
      = (check_daily_limit 10 (check_5min_limit 3000 10 ⟨0, 0, 0, 0⟩).1).1.requests_in_5min + 1 ∧
    (make_request_internal 3000 10 (.response 200 true) ⟨0, 0, 0, 0⟩).1.daily_request_count
      = (check_daily_limit 10 (check_5min_limit 3000 10 ⟨0, 0, 0, 0⟩).1).1.daily_request_count + 1 := by
  have h5 : check_5min_limit 3000 10 ⟨0, 0, 0, 0⟩ = (⟨0, 0, 0, 0⟩, true) := by
    simp only [check_5min_limit]
    rw [if_neg (by norm_num)]
    rfl
  have hd : check_daily_limit 10 ⟨0, 0, 0, 0⟩ = (⟨0, 0, 0, 0⟩, true) := by
    simp only [check_daily_limit]
    rw [if_neg (by norm_num)]
    rfl
  exact (ledger_increment_characterization 3000 10 (.response 200 true) ⟨0, 0, 0, 0⟩).2.2.1
    (by simp [h5]) (by simp [h5, hd]) 200 true rfl

/-! ### Retry policy (C6)

Embeds `_exponential_backoff_retry` (client.py 94-140).  Each attempt's
outcome is given by `outcome : Nat -> AttemptOutcome` (what `func`
raises, or success, at that attempt index); `jitter i` is the value
`random.uniform(0.1, 0.5)` drew at attempt `i`.
-/

inductive AttemptOutcome
  | success
  | rateLimitErr
  | transientErr
  | permanentErr
  | parsingErr
  | authErr
deriving DecidableEq, Repr

/-- One backoff sleep for a rate-limit retry (client.py 115-121):
`min(2 ** attempt + jitter, 60)`. -/
def backoff_delay (attempt : Nat) (jitter : ℚ) : ℚ :=
  min ((2 : ℚ) ^ attempt + jitter) 60

/-- Result of a `_exponential_backoff_retry` run: the surfaced error
class (`none` means the call returned), the number of attempts actually
made, and the sleeps performed in order. -/
structure RetryTrace where
  result : Option AttemptOutcome
  attemptsMade : Nat
  delays : List ℚ
deriving DecidableEq, Repr

/-- The loop `for attempt in range(max_retries + 1)` of
`_exponential_backoff_retry`, with `remaining = max_retries - attempt`:
RateLimitError sleeps `backoff_delay` and retries, TransientError sleeps
a fixed 5 seconds and retries, and at the final attempt each re-raises;
PermanentError, ParsingError and AuthenticationError re-raise
immediately without any retry. -/
def retry_loop (outcome : Nat → AttemptOutcome) (jitter : Nat → ℚ) :
    Nat → Nat → RetryTrace
  | 0, attempt =>
      match outcome attempt with
      | .success => ⟨none, attempt + 1, []⟩
      | c => ⟨some c, attempt + 1, []⟩
  | r + 1, attempt =>
      match outcome attempt with
      | .success => ⟨none, attempt + 1, []⟩
      | .rateLimitErr =>
          let t := retry_loop outcome jitter r (attempt + 1)
          ⟨t.result, t.attemptsMade, backoff_delay attempt (jitter attempt) :: t.delays⟩
      | .transientErr =>
          let t := retry_loop outcome jitter r (attempt + 1)
          ⟨t.result, t.attemptsMade, (5 : ℚ) :: t.delays⟩
      | c => ⟨some c, attempt + 1, []⟩

/-- Embeds `_exponential_backoff_retry(func, ..., max_retries)`. -/
def exponential_backoff_retry (outcome : Nat → AttemptOutcome) (jitter : Nat → ℚ)
    (max_retries : Nat) : RetryTrace :=
  retry_loop outcome jitter max_retries 0

/-- C6, confirmed: the retry policy is keyed by error class.  With the
configured bound of 3 retries (as `_make_request` passes, client.py
290-295) and jitter drawn from the bounded interval, a persistently
rate-limited call makes exactly 4 attempts, sleeps the three backoff
delays `min(2 ** attempt + jitter, 60)` whose values are strictly
increasing and capped at 60, and surfaces the RateLimitError class;
whereas a first attempt that raises PermanentError (NotFound or other
client error), ParsingError or AuthenticationError is surfaced
immediately after a single attempt, class preserved, with no sleep. -/
theorem retry_policy_by_class (jitter : Nat → ℚ)
    (hj : ∀ i, 1/10 ≤ jitter i ∧ jitter i ≤ 1/2)
    (o1 o2 : Nat → AttemptOutcome)
    (h1 : ∀ i, o1 i = .rateLimitErr)
    (c : AttemptOutcome)
    (hc : c = .permanentErr ∨ c = .parsingErr ∨ c = .authErr)
    (h2 : o2 0 = c) (max_retries : Nat) :
    ((exponential_backoff_retry o1 jitter 3).result = some .rateLimitErr ∧
     (exponential_backoff_retry o1 jitter 3).attemptsMade = 4 ∧
     (exponential_backoff_retry o1 jitter 3).delays
        = [backoff_delay 0 (jitter 0), backoff_delay 1 (jitter 1), backoff_delay 2 (jitter 2)] ∧
     (exponential_backoff_retry o1 jitter 3).delays.Chain' (· < ·) ∧
     (∀ d ∈ (exponential_backoff_retry o1 jitter 3).delays, d ≤ 60)) ∧
    exponential_backoff_retry o2 jitter max_retries = ⟨some c, 1, []⟩ := by
  have hrun : exponential_backoff_retry o1 jitter 3
      = ⟨some .rateLimitErr, 4,
         [backoff_delay 0 (jitter 0), backoff_delay 1 (jitter 1), backoff_delay 2 (jitter 2)]⟩ := by
    simp [exponential_backoff_retry, retry_loop, h1 0, h1 1, h1 2, h1 3]
  have hb0 : backoff_delay 0 (jitter 0) = 1 + jitter 0 := by
    unfold backoff_delay
    rw [min_eq_left (by nlinarith [(hj 0).1, (hj 0).2])]
    norm_num
  have hb1 : backoff_delay 1 (jitter 1) = 2 + jitter 1 := by
    unfold backoff_delay
    rw [min_eq_left (by nlinarith [(hj 1).1, (hj 1).2])]
    norm_num
  have hb2 : backoff_delay 2 (jitter 2) = 4 + jitter 2 := by
    unfold backoff_delay
    rw [min_eq_left (by nlinarith [(hj 2).1, (hj 2).2])]
    norm_num
  refine ⟨⟨?_, ?_, ?_, ?_, ?_⟩, ?_⟩
  · rw [hrun]
  · rw [hrun]
  · rw [hrun]
  · rw [hrun]
    refine List.Chain'.cons ?_ (List.Chain'.cons ?_ (List.chain'_singleton _))
    · rw [hb0, hb1]
      have := (hj 0).2
      have := (hj 1).1
      linarith
    · rw [hb1, hb2]
      have := (hj 1).2
      have := (hj 2).1
      linarith
  · rw [hrun]
    intro d hd
    rcases List.mem_cons.mp hd with h | h
    · rw [h]
      exact min_le_right _ _
    · rcases List.mem_cons.mp h with h | h
      · rw [h]
        exact min_le_right _ _
      · rcases List.mem_cons.mp h with h | h
        · rw [h]
          exact min_le_right _ _
        · cases h
  · cases max_retries with
    | zero =>
        rcases hc with rfl | rfl | rfl <;>
          simp [exponential_backoff_retry, retry_loop, h2]
    | succ r =>
        rcases hc with rfl | rfl | rfl <;>
          simp [exponential_backoff_retry, retry_loop, h2]

/-- Witness for C6: constant jitter one quarter, persistently
rate-limited first run, immediately-permanent second run, bound 5. -/
theorem retry_policy_by_class_witness :
    ((exponential_backoff_retry (fun _ => .rateLimitErr) (fun _ => 1/4) 3).result
        = some .rateLimitErr ∧
     (exponential_backoff_retry (fun _ => .rateLimitErr) (fun _ => 1/4) 3).attemptsMade = 4 ∧
     (exponential_backoff_retry (fun _ => .rateLimitErr) (fun _ => 1/4) 3).delays
        = [backoff_delay 0 ((fun _ => (1:ℚ)/4) 0), backoff_delay 1 ((fun _ => (1:ℚ)/4) 1),
           backoff_delay 2 ((fun _ => (1:ℚ)/4) 2)] ∧
     (exponential_backoff_retry (fun _ => .rateLimitErr) (fun _ => 1/4) 3).delays.Chain' (· < ·) ∧
     (∀ d ∈ (exponential_backoff_retry (fun _ => .rateLimitErr) (fun _ => 1/4) 3).delays,
        d ≤ 60)) ∧
    exponential_backoff_retry (fun _ => .permanentErr) (fun _ => 1/4) 5
      = ⟨some .permanentErr, 1, []⟩ :=
  retry_policy_by_class (fun _ => 1/4) (fun _ => by norm_num)
    (fun _ => .rateLimitErr) (fun _ => .permanentErr) (fun _ => rfl)
    .permanentErr (Or.inl rfl) rfl 5

/-! ## Tiered cache

Embeds `IntelligentCache` of src/api/intelligent_cache.py: the
`should_cache` predicate (126-156), category assignment
`_determine_cache_type` (99-114) with `_get_ttl_for_type` (116-124), and
the two-tier `get` (158-235) / `put` (237-282) operations.  The md5
fingerprint `_generate_cache_key` is modelled as the
(endpoint, params) pair itself (a collision-free abstraction); the two
tiers are association lists; wall-clock times are rationals; payloads
are opaque strings.  The hit/miss statistics dictionary, which never
influences lookups or stored entries, is elided.
-/

/-- Python substring containment, `needle in hay`. -/
def strContainsSub (hay needle : String) : Bool :=
  hay.toList.tails.any (fun t => needle.toList.isPrefixOf t)

/-- `params.get(key, "")` on the request parameter dictionary. -/
def getParam (params : List (String × String)) (key : String) : String :=
  match params.lookup key with
  | some v => v
  | none => ""

inductive CacheType
  | static
  | record
  | dynamic
  | complex_search
deriving DecidableEq, Repr

def static_cache_ttl : ℚ := 86400

def dynamic_cache_ttl : ℚ := 3600

def record_cache_ttl : ℚ := 7200

def memory_cache_max_size : Nat := 1000

/-- Embeds `should_cache` (intelligent_cache.py 126-156).  Note the
search branch falls through to the context/children check when the
query is short, exactly as the Python returns do. -/
def should_cache (endpoint : String) (params : List (String × String)) : Bool :=
  if strContainsSub endpoint "repository" || strContainsSub endpoint "fileauthorities" then
    true
  else if strContainsSub endpoint "records/v1/details" then
    true
  else if strContainsSub endpoint "search" &&
      decide (10 < (getParam params "sps.searchQuery").length) then
    true
  else if strContainsSub endpoint "context" || strContainsSub endpoint "children" then
    true
  else
    false

/-- Embeds `_determine_cache_type` (intelligent_cache.py 99-114). -/
def determine_cache_type (endpoint : String) (params : List (String × String)) : CacheType :=
  if strContainsSub endpoint "repository" then .static
  else if strContainsSub endpoint "fileauthorities" then .static
  else if strContainsSub endpoint "records/v1/details" then .record
  else if strContainsSub endpoint "search" then
    (if 50 < (getParam params "sps.searchQuery").length then .complex_search else .dynamic)
  else .dynamic

/-- Embeds `_get_ttl_for_type` (intelligent_cache.py 116-124). -/
def get_ttl_for_type : CacheType → ℚ
  | .static => static_cache_ttl
  | .record => record_cache_ttl
  | .dynamic => dynamic_cache_ttl
  | .complex_search => dynamic_cache_ttl * 2

abbrev CacheKey := String × List (String × String)

/-- One entry of the in-memory tier `self.memory_cache`. -/
structure MemCacheEntry where
  data : String
  created_at : ℚ
  ttl : ℚ
  last_accessed : ℚ
deriving DecidableEq, Repr

/-- One row of the durable tier `cache_entries`. -/
structure DiskCacheEntry where
  data : String
  created_at : ℚ
  ttl : ℚ
  cache_type : CacheType
  access_count : Nat
  last_accessed : ℚ
deriving DecidableEq, Repr

structure CacheState where
  memory : List (CacheKey × MemCacheEntry)
  disk : List (CacheKey × DiskCacheEntry)
deriving DecidableEq, Repr

def alookup {β : Type} (k : CacheKey) : List (CacheKey × β) → Option β
  | [] => none
  | p :: rest => if p.1 = k then some p.2 else alookup k rest

def aerase {β : Type} (k : CacheKey) (l : List (CacheKey × β)) : List (CacheKey × β) :=
  l.filter (fun p => p.1 ≠ k)

/-- Keyed assignment: dictionary item assignment in the memory tier,
`INSERT OR REPLACE` in the durable tier. -/
def aset {β : Type} (k : CacheKey) (v : β) (l : List (CacheKey × β)) : List (CacheKey × β) :=
  (k, v) :: aerase k l

/-- The durable-tier half of `IntelligentCache.get` (intelligent_cache.py
188-235): an unexpired hit bumps the access statistics and is promoted
into memory when there is room; an expired hit is deleted on the way
out; otherwise a miss. -/
def cache_get_disk (k : CacheKey) (now : ℚ) (s : CacheState) : Option String × CacheState :=
  match alookup k s.disk with
  | some d =>
      if now - d.created_at < d.ttl then
        let d2 : DiskCacheEntry := { d with access_count := d.access_count + 1, last_accessed := now }
        let s2 := { s with disk := aset k d2 s.disk }
        let s3 := if s2.memory.length < memory_cache_max_size then
            { s2 with memory := aset k ⟨d.data, d.created_at, d.ttl, now⟩ s2.memory }
          else s2
        (some d.data, s3)
      else
        (none, { s with disk := aerase k s.disk })
  | none => (none, s)

/-- Embeds `IntelligentCache.get` (intelligent_cache.py 158-235):
nothing is looked up for an uncacheable request; a fresh memory hit
returns directly; an expired memory entry is deleted and the durable
tier consulted. -/
def cache_get (endpoint : String) (params : List (String × String)) (now : ℚ)
    (s : CacheState) : Option String × CacheState :=
  if should_cache endpoint params = false then (none, s)
  else
    let k : CacheKey := (endpoint, params)
    match alookup k s.memory with
    | some e =>
        if now - e.created_at < e.ttl then
          (some e.data, { s with memory := aset k { e with last_accessed := now } s.memory })
        else
          cache_get_disk k now { s with memory := aerase k s.memory }
    | none => cache_get_disk k now s

/-- Embeds `IntelligentCache.put` (intelligent_cache.py 237-282):
nothing is stored for an uncacheable request; otherwise the durable row
is written unconditionally (REPLACE semantics, access count reset) and
the memory tier only while below its fixed capacity. -/
def cache_put (endpoint : String) (params : List (String × String)) (data : String)
    (now : ℚ) (s : CacheState) : CacheState :=
  if should_cache endpoint params = false then s
  else
    let k : CacheKey := (endpoint, params)
    let ty := determine_cache_type endpoint params
    let ttl := get_ttl_for_type ty
    let s1 := { s with disk := aset k ⟨data, now, ttl, ty, 0, now⟩ s.disk }
    if s1.memory.length < memory_cache_max_size then
      { s1 with memory := aset k ⟨data, now, ttl, now⟩ s1.memory }
    else s1

theorem alookup_aset_self {β : Type} (k : CacheKey) (v : β) (l : List (CacheKey × β)) :
    alookup k (aset k v l) = some v := by
  simp [aset, alookup]

theorem alookup_aerase_self {β : Type} (k : CacheKey) (l : List (CacheKey × β)) :
    alookup k (aerase k l) = none := by
  induction l with
  | nil => rfl
  | cons p rest ih =>
      by_cases h : p.1 = k
      · simpa [aerase, h] using ih
      · simpa [aerase, alookup, h] using ih

/-- C7, confirmed: a cache entry is visible to `get` exactly while
`now < createdAt + ttl`.  After a `put` whose category is Static, a
`get` before the TTL elapses returns the payload, while a `get` at or
past `createdAt + ttl` returns none and deletes the expired durable-tier
row on that read.  The well-formedness hypothesis says the memory tier
only holds this key while below capacity (which every reachable state
satisfies, since `put` skips the memory tier once it is full). -/
theorem cache_static_ttl_visibility (endpoint : String) (params : List (String × String))
    (data : String) (t0 t1 : ℚ) (s : CacheState)
    (hsc : should_cache endpoint params = true)
    (hcat : determine_cache_type endpoint params = .static)
    (hroom : alookup (endpoint, params) s.memory ≠ none →
      s.memory.length < memory_cache_max_size) :
    (t1 - t0 < static_cache_ttl →
      (cache_get endpoint params t1 (cache_put endpoint params data t0 s)).1 = some data) ∧
    (static_cache_ttl ≤ t1 - t0 →
      (cache_get endpoint params t1 (cache_put endpoint params data t0 s)).1 = none ∧
      alookup (endpoint, params)
        (cache_get endpoint params t1 (cache_put endpoint params data t0 s)).2.disk = none) := by
  have hput : cache_put endpoint params data t0 s
      = (if s.memory.length < memory_cache_max_size then
          (⟨aset (endpoint, params) ⟨data, t0, static_cache_ttl, t0⟩ s.memory,
            aset (endpoint, params) ⟨data, t0, static_cache_ttl, .static, 0, t0⟩ s.disk⟩
           : CacheState)
         else
          ⟨s.memory, aset (endpoint, params) ⟨data, t0, static_cache_ttl, .static, 0, t0⟩ s.disk⟩) := by
    simp only [cache_put, hsc, hcat, get_ttl_for_type, Bool.true_eq_false, if_false]
  by_cases hr : s.memory.length < memory_cache_max_size
  · rw [if_pos hr] at hput
    constructor
    · intro hfresh
      rw [hput]
      simp [cache_get, hsc, alookup_aset_self, hfresh]
    · intro hexp
      have hnl : ¬ (t1 - t0 < static_cache_ttl) := not_lt.mpr hexp
      rw [hput]
      simp [cache_get, hsc, alookup_aset_self, hnl, cache_get_disk, alookup_aerase_self]
  · rw [if_neg hr] at hput
    have hnone : alookup (endpoint, params) s.memory = none := by
      cases h : alookup (endpoint, params) s.memory with
      | none => rfl
      | some e => exact absurd (hroom (by rw [h]; exact Option.some_ne_none e)) hr
    constructor
    · intro hfresh
      rw [hput]
      simp [cache_get, hsc, hnone, cache_get_disk, alookup_aset_self, hfresh]
    · intro hexp
      have hnl : ¬ (t1 - t0 < static_cache_ttl) := not_lt.mpr hexp
      rw [hput]
      simp [cache_get, hsc, hnone, cache_get_disk, alookup_aset_self, hnl, alookup_aerase_self]

/-- Witness for C7: a Static put on the repository endpoint, read back
once inside the TTL and once exactly at expiry. -/
theorem cache_static_ttl_visibility_witness :
    (cache_get "repository" [] 100 (cache_put "repository" [] "payload" 0 ⟨[], []⟩)).1
      = some "payload" ∧
    (cache_get "repository" [] 86400 (cache_put "repository" [] "payload" 0 ⟨[], []⟩)).1
      = none ∧
    alookup ("repository", [])
      (cache_get "repository" [] 86400
        (cache_put "repository" [] "payload" 0 ⟨[], []⟩)).2.disk = none := by
  refine ⟨?_, ?_⟩
  · exact (cache_static_ttl_visibility "repository" [] "payload" 0 100 ⟨[], []⟩
      (by decide) (by decide) (fun h => absurd rfl h)).1
      (by norm_num [static_cache_ttl])
  · exact (cache_static_ttl_visibility "repository" [] "payload" 0 86400 ⟨[], []⟩
      (by decide) (by decide) (fun h => absurd rfl h)).2
      (by norm_num [static_cache_ttl])

/-- C10, confirmed: when `should_cache` rejects a request, `put` stores
nothing in either tier (the state is returned unchanged) and `get`
returns none without touching the state - in particular a `get`
immediately after a `put` of a fresh payload for that same endpoint and
parameters still returns none. -/
theorem uncacheable_requests_bypass (endpoint : String) (params : List (String × String))
    (h : should_cache endpoint params = false) :
    (∀ data now s, cache_put endpoint params data now s = s) ∧
    (∀ now s, cache_get endpoint params now s = (none, s)) ∧
    (∀ data t0 t1 s,
      (cache_get endpoint params t1 (cache_put endpoint params data t0 s)).1 = none) := by
  refine ⟨fun data now s => by simp [cache_put, h],
    fun now s => by simp [cache_get, h],
    fun data t0 t1 s => by simp [cache_put, cache_get, h]⟩

/-- Witness for C10: a search endpoint with a ten-or-fewer-character
query is rejected by `should_cache`; put is a no-op and get misses even
right after the put. -/
theorem uncacheable_requests_bypass_witness :
    cache_put "search/v1/records" [("sps.searchQuery", "tiny")] "payload" 0 ⟨[], []⟩
      = ⟨[], []⟩ ∧
    cache_get "search/v1/records" [("sps.searchQuery", "tiny")] 1 ⟨[], []⟩
      = (none, ⟨[], []⟩) ∧
    (cache_get "search/v1/records" [("sps.searchQuery", "tiny")] 1
      (cache_put "search/v1/records" [("sps.searchQuery", "tiny")] "payload" 0 ⟨[], []⟩)).1
      = none := by
  have h := uncacheable_requests_bypass "search/v1/records"
    [("sps.searchQuery", "tiny")] (by decide)
  exact ⟨h.1 "payload" 0 ⟨[], []⟩, h.2.1 1 ⟨[], []⟩, h.2.2 "payload" 0 1 ⟨[], []⟩⟩

/-! ## Cursor paginator

Embeds `CursorPaginator` of src/utils/pagination.py: the cursor WHERE
condition and ORDER BY direction built by `_build_cursor_query`
(185-266) and the page assembly of `paginate_records` (90-183).  A row
carries its ordering column (`created_at`, the default `order_by`) and
its tie-break `id`; SQLite compares both as TEXT, a total order that we
abstract order-isomorphically to Nat.  Filters other than the cursor
condition are not exercised by the claim and are omitted; the cursor
string codec is modelled separately below, so the query layer takes the
decoded cursor.
-/

structure PRow where
  ts : Nat
  id : Nat
deriving DecidableEq, Repr

inductive PDirection
  | forward
  | backward
deriving DecidableEq, Repr

/-- A decoded pagination cursor as consumed by `_build_cursor_query`. -/
structure QueryCursor where
  timestamp : Nat
  record_id : Nat
  direction : PDirection
deriving DecidableEq, Repr

/-- The WHERE predicate `_build_cursor_query` emits (pagination.py
215-246): forward keeps rows strictly beyond the cursor in scan order,
backward inverts the comparison. -/
def cursor_condition (c : QueryCursor) (desc : Bool) (r : PRow) : Bool :=
  match c.direction with
  | .forward =>
      if desc then decide (r.ts < c.timestamp ∨ (r.ts = c.timestamp ∧ r.id < c.record_id))
      else decide (c.timestamp < r.ts ∨ (r.ts = c.timestamp ∧ c.record_id < r.id))
  | .backward =>
      if desc then decide (c.timestamp < r.ts ∨ (r.ts = c.timestamp ∧ c.record_id < r.id))
      else decide (r.ts < c.timestamp ∨ (r.ts = c.timestamp ∧ r.id < c.record_id))

def build_cursor_filter (cursor : Option QueryCursor) (desc : Bool) (r : PRow) : Bool :=
  match cursor with
  | none => true
  | some c => cursor_condition c desc r

/-- The final ORDER BY direction: a backward cursor flips it
(pagination.py 247-248); the page is NOT re-reversed afterwards. -/
def final_descending (cursor : Option QueryCursor) (desc : Bool) : Bool :=
  match cursor with
  | none => desc
  | some c => if c.direction = .backward then !desc else desc

/-- `ORDER BY order_by dir, id dir` (pagination.py 255) as a total order
on rows. -/
def row_le (desc : Bool) (a b : PRow) : Prop :=
  match desc with
  | true => b.ts < a.ts ∨ (b.ts = a.ts ∧ b.id ≤ a.id)
  | false => a.ts < b.ts ∨ (a.ts = b.ts ∧ a.id ≤ b.id)

instance row_le_decidable (desc : Bool) : DecidableRel (row_le desc) := fun a b =>
  match desc with
  | true => inferInstanceAs (Decidable (b.ts < a.ts ∨ (b.ts = a.ts ∧ b.id ≤ a.id)))
  | false => inferInstanceAs (Decidable (a.ts < b.ts ∨ (a.ts = b.ts ∧ a.id ≤ b.id)))

instance row_le_total (desc : Bool) : IsTotal PRow (row_le desc) := ⟨by
  intro a b
  cases desc <;> simp only [row_le] <;> omega⟩

instance row_le_trans (desc : Bool) : IsTrans PRow (row_le desc) := ⟨by
  intro a b c hab hbc
  cases desc <;> simp only [row_le] at * <;> omega⟩

instance row_le_antisymm (desc : Bool) : IsAntisymm PRow (row_le desc) := ⟨by
  intro a b hab hba
  have h : a.ts = b.ts ∧ a.id = b.id := by
    cases desc <;> simp only [row_le] at * <;> omega
  cases a
  cases b
  simp_all⟩

structure PageResult where
  records : List PRow
  next_cursor : Option QueryCursor
  prev_cursor : Option QueryCursor
  has_next : Bool
  has_prev : Bool
deriving DecidableEq, Repr

/-- Embeds `paginate_records` (pagination.py 90-183) over the rows of
the records table: apply the cursor condition, sort by the final ORDER
BY direction, LIMIT page_size, and derive navigation state; the next
cursor comes from the last returned row, the prev cursor from the first,
and the backward page is returned exactly as the (inverted) query
produced it. -/
def paginate_records (rows : List PRow) (page_size : Nat) (cursor : Option QueryCursor)
    (desc : Bool) : PageResult :=
  let fdesc := final_descending cursor desc
  let page := (List.insertionSort (row_le fdesc)
      (rows.filter (build_cursor_filter cursor desc))).take page_size
  let has_next := decide (page.length = page_size)
  let has_prev := cursor.isSome
  let next_cursor := if has_next then
      match page.getLast? with
      | some last => some ⟨last.ts, last.id, .forward⟩
      | none => none
    else none
  let prev_cursor := if has_prev then
      match page.head? with
      | some first => some ⟨first.ts, first.id, .backward⟩
      | none => none
    else none
  ⟨page, next_cursor, prev_cursor, has_next, has_prev⟩

/-- C4, counterexample: four descending rows, page size two.  The
backward page built from page two's prev cursor comes back in ascending
order - it is not re-reversed - so it differs from page one as a
sequence; and with a row inserted between the calls the backward page's
item set loses row (4,4) and gains the new row (2,3), so the previous
page's item set is not reproduced. -/
theorem backward_page_not_rereversed :
    (paginate_records [⟨4, 4⟩, ⟨3, 3⟩, ⟨2, 2⟩, ⟨1, 1⟩] 2 none true).records
      = [⟨4, 4⟩, ⟨3, 3⟩] ∧
    (paginate_records [⟨4, 4⟩, ⟨3, 3⟩, ⟨2, 2⟩, ⟨1, 1⟩] 2 none true).next_cursor
      = some ⟨3, 3, .forward⟩ ∧
    (paginate_records [⟨4, 4⟩, ⟨3, 3⟩, ⟨2, 2⟩, ⟨1, 1⟩] 2 (some ⟨3, 3, .forward⟩) true).records
      = [⟨2, 2⟩, ⟨1, 1⟩] ∧
    (paginate_records [⟨4, 4⟩, ⟨3, 3⟩, ⟨2, 2⟩, ⟨1, 1⟩] 2 (some ⟨3, 3, .forward⟩) true).prev_cursor
      = some ⟨2, 2, .backward⟩ ∧
    (paginate_records [⟨4, 4⟩, ⟨3, 3⟩, ⟨2, 2⟩, ⟨1, 1⟩] 2 (some ⟨2, 2, .backward⟩) true).records
      = [⟨3, 3⟩, ⟨4, 4⟩] ∧
    (paginate_records [⟨4, 4⟩, ⟨3, 3⟩, ⟨2, 2⟩, ⟨1, 1⟩] 2 (some ⟨2, 2, .backward⟩) true).records
      ≠ (paginate_records [⟨4, 4⟩, ⟨3, 3⟩, ⟨2, 2⟩, ⟨1, 1⟩] 2 none true).records ∧
    (paginate_records [⟨4, 4⟩, ⟨3, 3⟩, ⟨2, 2⟩, ⟨1, 1⟩, ⟨2, 3⟩] 2
        (some ⟨2, 2, .backward⟩) true).records = [⟨2, 3⟩, ⟨3, 3⟩] ∧
    (⟨4, 4⟩ : PRow) ∈ (paginate_records [⟨4, 4⟩, ⟨3, 3⟩, ⟨2, 2⟩, ⟨1, 1⟩] 2 none true).records ∧
    (⟨4, 4⟩ : PRow) ∉ (paginate_records [⟨4, 4⟩, ⟨3, 3⟩, ⟨2, 2⟩, ⟨1, 1⟩, ⟨2, 3⟩] 2
        (some ⟨2, 2, .backward⟩) true).records := by
  decide

/-- Row `a` strictly precedes row `b` in the descending (ts, id) scan
order. -/
def rowGtD (a b : PRow) : Prop :=
  b.ts < a.ts ∨ (b.ts = a.ts ∧ b.id < a.id)

instance rowGtD_decidable : DecidableRel rowGtD := fun a b =>
  inferInstanceAs (Decidable (b.ts < a.ts ∨ (b.ts = a.ts ∧ b.id < a.id)))

theorem row_le_of_rowGtD {a b : PRow} (h : rowGtD a b) : row_le true a b := by
  simp only [rowGtD, row_le] at *
  omega

theorem row_ge_of_rowGtD {a b : PRow} (h : rowGtD a b) : row_le false b a := by
  simp only [rowGtD, row_le] at *
  omega

theorem not_rowGtD_self (a : PRow) : ¬ rowGtD a a := by
  simp [rowGtD]

theorem rowGtD_asymm {a b : PRow} (h : rowGtD a b) : ¬ rowGtD b a := by
  simp only [rowGtD] at *
  omega

theorem cursor_condition_forward_desc (x r : PRow) :
    cursor_condition ⟨x.ts, x.id, .forward⟩ true r = decide (rowGtD x r) := by
  simp only [cursor_condition, rowGtD, if_pos]

theorem cursor_condition_backward_desc (x r : PRow) :
    cursor_condition ⟨x.ts, x.id, .backward⟩ true r = decide (rowGtD r x) := by
  simp only [cursor_condition, rowGtD, if_pos]
  exact decide_eq_decide.mpr (by omega)

theorem filter_forward_cursor (A0 : List PRow) (la : PRow) (rest : List PRow)
    (hpw : List.Pairwise rowGtD ((A0 ++ [la]) ++ rest)) :
    ((A0 ++ [la]) ++ rest).filter (cursor_condition ⟨la.ts, la.id, .forward⟩ true) = rest := by
  have h := List.pairwise_append.mp hpw
  have hA := List.pairwise_append.mp h.1
  rw [List.filter_append]
  have h1 : (A0 ++ [la]).filter (cursor_condition ⟨la.ts, la.id, .forward⟩ true) = [] := by
    rw [List.filter_eq_nil_iff]
    intro a ha
    rw [cursor_condition_forward_desc]
    simp only [decide_eq_true_eq]
    rcases List.mem_append.mp ha with h2 | h2
    · exact rowGtD_asymm (hA.2.2 a h2 la (List.mem_singleton.mpr rfl))
    · rw [List.mem_singleton.mp h2]
      exact not_rowGtD_self la
  have h2 : rest.filter (cursor_condition ⟨la.ts, la.id, .forward⟩ true) = rest := by
    rw [List.filter_eq_self]
    intro r hr
    rw [cursor_condition_forward_desc]
    simp only [decide_eq_true_eq]
    exact h.2.2 la (List.mem_append_right _ (List.mem_singleton.mpr rfl)) r hr
  rw [h1, h2, List.nil_append]

theorem filter_backward_cursor (A : List PRow) (b0 : PRow) (B0C : List PRow)
    (hpw : List.Pairwise rowGtD (A ++ (b0 :: B0C))) :
    (A ++ (b0 :: B0C)).filter (cursor_condition ⟨b0.ts, b0.id, .backward⟩ true) = A := by
  have h := List.pairwise_append.mp hpw
  have hB := List.pairwise_cons.mp h.2.1
  rw [List.filter_append]
  have h1 : A.filter (cursor_condition ⟨b0.ts, b0.id, .backward⟩ true) = A := by
    rw [List.filter_eq_self]
    intro a ha
    rw [cursor_condition_backward_desc]
    simp only [decide_eq_true_eq]
    exact h.2.2 a ha b0 (List.mem_cons_self _ _)
  have h2 : (b0 :: B0C).filter (cursor_condition ⟨b0.ts, b0.id, .backward⟩ true) = [] := by
    rw [List.filter_eq_nil_iff]
    intro r hr
    rw [cursor_condition_backward_desc]
    simp only [decide_eq_true_eq]
    rcases List.mem_cons.mp hr with h3 | h3
    · rw [h3]
      exact not_rowGtD_self b0
    · exact rowGtD_asymm (hB.1 r h3)
  rw [h1, h2, List.append_nil]

theorem insertionSort_asc_of_desc (A : List PRow) (h : A.Pairwise rowGtD) :
    List.insertionSort (row_le false) A = A.reverse := by
  have hs : List.Sorted (row_le false) A.reverse := by
    rw [List.Sorted, List.pairwise_reverse]
    exact h.imp (fun hab => row_ge_of_rowGtD hab)
  exact List.eq_of_perm_of_sorted
    ((List.perm_insertionSort _ A).trans (List.reverse_perm A).symm)
    (List.sorted_insertionSort _ A) hs

/-- C4, amended: backward pagination inverts the cursor comparison and
the final ORDER BY direction but does NOT re-reverse the returned page:
the backward page is presented in the inverted (ascending) order.  With
no rows inserted between the calls, paginating forward, taking page
two's prev cursor, and paginating backward yields exactly the previous
page's records in reverse; a row inserted between the calls can
displace items of the reproduced page (shown by the counterexample).
Rows are given in strictly descending scan order (`Pairwise rowGtD`),
page one is `A0 ++ [la]`, and `b0` heads the remainder. -/
theorem backward_pagination_inverts_without_rereverse (A0 : List PRow) (la b0 : PRow)
    (B0 C : List PRow) (n : Nat) (hn : A0.length + 1 = n)
    (hpw : List.Pairwise rowGtD ((A0 ++ [la]) ++ ((b0 :: B0) ++ C))) :
    (paginate_records ((A0 ++ [la]) ++ ((b0 :: B0) ++ C)) n none true).records
      = A0 ++ [la] ∧
    (paginate_records ((A0 ++ [la]) ++ ((b0 :: B0) ++ C)) n none true).next_cursor
      = some ⟨la.ts, la.id, .forward⟩ ∧
    (paginate_records ((A0 ++ [la]) ++ ((b0 :: B0) ++ C)) n
        (some ⟨la.ts, la.id, .forward⟩) true).prev_cursor
      = some ⟨b0.ts, b0.id, .backward⟩ ∧
    (paginate_records ((A0 ++ [la]) ++ ((b0 :: B0) ++ C)) n
        (some ⟨b0.ts, b0.id, .backward⟩) true).records
      = (A0 ++ [la]).reverse := by
  have hparts := List.pairwise_append.mp hpw
  have hlen : (A0 ++ [la]).length = n := by
    rw [List.length_append, List.length_singleton]
    exact hn
  have hsortedD : List.Sorted (row_le true) ((A0 ++ [la]) ++ ((b0 :: B0) ++ C)) :=
    hpw.imp (fun hab => row_le_of_rowGtD hab)
  have hfilter_none : ((A0 ++ [la]) ++ ((b0 :: B0) ++ C)).filter
      (build_cursor_filter none true) = (A0 ++ [la]) ++ ((b0 :: B0) ++ C) :=
    List.filter_true _
  have hsort1 : List.insertionSort (row_le true) ((A0 ++ [la]) ++ ((b0 :: B0) ++ C))
      = (A0 ++ [la]) ++ ((b0 :: B0) ++ C) := hsortedD.insertionSort_eq
  have hfd1 : final_descending (none : Option QueryCursor) true = true := rfl
  have hfd2 : final_descending (some ⟨la.ts, la.id, .forward⟩) true = true := rfl
  have hfd3 : final_descending (some ⟨b0.ts, b0.id, .backward⟩) true = false := rfl
  have hp1 : paginate_records ((A0 ++ [la]) ++ ((b0 :: B0) ++ C)) n none true
      = ⟨A0 ++ [la], some ⟨la.ts, la.id, .forward⟩, none, true, false⟩ := by
    unfold paginate_records
    rw [hfd1, hfilter_none]
    simp only [hsort1, List.take_left' hlen]
    simp [hlen, List.getLast?_concat]
  have hfwd : ((A0 ++ [la]) ++ ((b0 :: B0) ++ C)).filter
      (build_cursor_filter (some ⟨la.ts, la.id, .forward⟩) true) = (b0 :: B0) ++ C :=
    filter_forward_cursor A0 la ((b0 :: B0) ++ C) hpw
  have hsort2 : List.insertionSort (row_le true) ((b0 :: B0) ++ C) = (b0 :: B0) ++ C :=
    List.Sorted.insertionSort_eq (hparts.2.1.imp (fun hab => row_le_of_rowGtD hab))
  have hp2prev : (paginate_records ((A0 ++ [la]) ++ ((b0 :: B0) ++ C)) n
      (some ⟨la.ts, la.id, .forward⟩) true).prev_cursor
      = some ⟨b0.ts, b0.id, .backward⟩ := by
    unfold paginate_records
    rw [hfd2, hfwd]
    simp only [hsort2]
    rw [← hn]
    simp [List.take_succ_cons]
  have hbwd : ((A0 ++ [la]) ++ ((b0 :: B0) ++ C)).filter
      (build_cursor_filter (some ⟨b0.ts, b0.id, .backward⟩) true) = A0 ++ [la] :=
    filter_backward_cursor (A0 ++ [la]) b0 (B0 ++ C) hpw
  have hsort3 : List.insertionSort (row_le false) (A0 ++ [la]) = (A0 ++ [la]).reverse :=
    insertionSort_asc_of_desc (A0 ++ [la]) hparts.1
  have hrl : (A0 ++ [la]).reverse.length = n := by
    rw [List.length_reverse]
    exact hlen
  have htake3 : List.take n (A0 ++ [la]).reverse = (A0 ++ [la]).reverse := by
    rw [← hrl, List.take_length]
  have hp3 : (paginate_records ((A0 ++ [la]) ++ ((b0 :: B0) ++ C)) n
      (some ⟨b0.ts, b0.id, .backward⟩) true).records = (A0 ++ [la]).reverse := by
    unfold paginate_records
    rw [hfd3, hbwd]
    simp only [hsort3, htake3]
  exact ⟨by rw [hp1], by rw [hp1], hp2prev, hp3⟩

/-- Witness for C4 on the concrete four-row table of the
counterexample, with page size two. -/
theorem backward_pagination_inverts_without_rereverse_witness :
    (paginate_records [⟨4, 4⟩, ⟨3, 3⟩, ⟨2, 2⟩, ⟨1, 1⟩] 2 none true).records
      = [⟨4, 4⟩, ⟨3, 3⟩] ∧
    (paginate_records [⟨4, 4⟩, ⟨3, 3⟩, ⟨2, 2⟩, ⟨1, 1⟩] 2 none true).next_cursor
      = some ⟨3, 3, .forward⟩ ∧
    (paginate_records [⟨4, 4⟩, ⟨3, 3⟩, ⟨2, 2⟩, ⟨1, 1⟩] 2
        (some ⟨3, 3, .forward⟩) true).prev_cursor = some ⟨2, 2, .backward⟩ ∧
    (paginate_records [⟨4, 4⟩, ⟨3, 3⟩, ⟨2, 2⟩, ⟨1, 1⟩] 2
        (some ⟨2, 2, .backward⟩) true).records = [⟨3, 3⟩, ⟨4, 4⟩] :=
  backward_pagination_inverts_without_rereverse [⟨4, 4⟩] ⟨3, 3⟩ ⟨2, 2⟩ [] [⟨1, 1⟩] 2
    rfl (by decide)

/-! ## Pagination cursor codec

Embeds `PaginationCursor.encode` / `PaginationCursor.decode`
(src/utils/pagination.py 22-51).  `encode` is
`base64.urlsafe_b64encode(json.dumps(fields, separators=(",", ":")).encode())`
and `decode` inverts it, collapsing every failure into the single typed
invalid-cursor error (the Python raises `ValueError("Invalid cursor")`
from a catch-all, which callers such as `paginate_records` handle).
The JSON layer is modelled for the object shape the codec produces and
consumes: a flat object with string values, rendered with
`ensure_ascii` escaping as `json.dumps` does, and parsed back with the
standard escape set; JSON payloads of any other shape are rejected,
which `decode` maps to the same invalid-cursor error the Python
constructor call would raise.  Escaped lone surrogates, which a Python
`str` could hold but a Unicode scalar string cannot, are likewise
rejected as invalid.
-/

def qu : Char := Char.ofNat 34

def bs : Char := Char.ofNat 92

def obr : Char := Char.ofNat 123

def cbr : Char := Char.ofNat 125

structure PaginationCursor where
  timestamp : String
  record_id : String
  direction : String
deriving DecidableEq, Repr

inductive CursorError
  | invalidCursor
deriving DecidableEq, Repr

def hexDigitChar (n : Nat) : Char :=
  if n < 10 then Char.ofNat (48 + n) else Char.ofNat (87 + n)

def hexDigitVal (c : Char) : Option Nat :=
  if 48 ≤ c.toNat ∧ c.toNat ≤ 57 then some (c.toNat - 48)
  else if 97 ≤ c.toNat ∧ c.toNat ≤ 102 then some (c.toNat - 87)
  else if 65 ≤ c.toNat ∧ c.toNat ≤ 70 then some (c.toNat - 55)
  else none

/-- A single `\uXXXX` escape (lowercase hex, as `json.dumps` emits). -/
def uEscape (cp : Nat) : List Char :=
  [bs, 'u', hexDigitChar (cp / 4096 % 16), hexDigitChar (cp / 256 % 16),
   hexDigitChar (cp / 16 % 16), hexDigitChar (cp % 16)]

/-- `json.dumps` ensure_ascii escaping of one character: quote and
backslash and the five short control escapes, printable ASCII verbatim,
everything else as `\uXXXX` (with a surrogate pair above U+FFFF). -/
def jsonEscapeChar (c : Char) : List Char :=
  if c = qu then [bs, qu]
  else if c = bs then [bs, bs]
  else if c = Char.ofNat 10 then [bs, 'n']
  else if c = Char.ofNat 13 then [bs, 'r']
  else if c = Char.ofNat 9 then [bs, 't']
  else if c = Char.ofNat 8 then [bs, 'b']
  else if c = Char.ofNat 12 then [bs, 'f']
  else if 32 ≤ c.toNat ∧ c.toNat ≤ 126 then [c]
  else if c.toNat < 65536 then uEscape c.toNat
  else uEscape (55296 + (c.toNat - 65536) / 1024) ++ uEscape (56320 + (c.toNat - 65536) % 1024)

def jsonEscapeString : List Char → List Char
  | [] => []
  | c :: rest => jsonEscapeChar c ++ jsonEscapeString rest

/-- A JSON string literal followed by a continuation. -/
def renderStringLit (s : List Char) (rest : List Char) : List Char :=
  qu :: (jsonEscapeString s ++ qu :: rest)

/-- `json.dumps(cursor_data, separators=(",", ":"))` for the cursor
dict, keys in insertion order: timestamp, record_id, direction. -/
def renderCursorJson (c : PaginationCursor) : List Char :=
  obr :: renderStringLit "timestamp".data (':' :: renderStringLit c.timestamp.data
    (',' :: renderStringLit "record_id".data (':' :: renderStringLit c.record_id.data
    (',' :: renderStringLit "direction".data (':' :: renderStringLit c.direction.data [cbr])))))

/-- UTF-8 encoding of the rendered JSON; `ensure_ascii` output is pure
ASCII, so each character is one byte. -/
def strBytes (s : List Char) : List Nat :=
  s.map Char.toNat

def b64Char (n : Nat) : Char :=
  if n < 26 then Char.ofNat (65 + n)
  else if n < 52 then Char.ofNat (97 + (n - 26))
  else if n < 62 then Char.ofNat (48 + (n - 52))
  else if n = 62 then '-'
  else '_'

/-- The URL-safe alphabet `urlsafe_b64decode` accepts: the standard
table plus the translated `-` and `_` (and the untranslated `+` `/`,
which pass straight through to the standard decoder). -/
def b64CharVal (c : Char) : Option Nat :=
  if 65 ≤ c.toNat ∧ c.toNat ≤ 90 then some (c.toNat - 65)
  else if 97 ≤ c.toNat ∧ c.toNat ≤ 122 then some (c.toNat - 97 + 26)
  else if 48 ≤ c.toNat ∧ c.toNat ≤ 57 then some (c.toNat - 48 + 52)
  else if c = '-' then some 62
  else if c = '_' then some 63
  else if c = '+' then some 62
  else if c = '/' then some 63
  else none

/-- `base64.urlsafe_b64encode` over a byte list. -/
def b64Encode : List Nat → List Char
  | [] => []
  | [b1] => [b64Char (b1 / 4), b64Char (b1 % 4 * 16), '=', '=']
  | [b1, b2] => [b64Char (b1 / 4), b64Char (b1 % 4 * 16 + b2 / 16), b64Char (b2 % 16 * 4), '=']
  | b1 :: b2 :: b3 :: rest =>
      b64Char (b1 / 4) :: b64Char (b1 % 4 * 16 + b2 / 16) ::
      b64Char (b2 % 16 * 4 + b3 / 64) :: b64Char (b3 % 64) :: b64Encode rest

def b64DecodeQuads : List Char → Option (List Nat)
  | [] => some []
  | c1 :: c2 :: c3 :: c4 :: rest =>
      match b64CharVal c1, b64CharVal c2 with
      | some s1, some s2 =>
          if c3 = '=' then
            if c4 = '=' ∧ rest = [] then some [s1 * 4 + s2 / 16] else none
          else
            match b64CharVal c3 with
            | some s3 =>
                if c4 = '=' then
                  if rest = [] then some [s1 * 4 + s2 / 16, s2 % 16 * 16 + s3 / 4] else none
                else
                  match b64CharVal c4, b64DecodeQuads rest with
                  | some s4, some tail =>
                      some ((s1 * 4 + s2 / 16) :: (s2 % 16 * 16 + s3 / 4) ::
                            (s3 % 4 * 64 + s4) :: tail)
                  | _, _ => none
            | none => none
      | _, _ => none
  | _ => none

/-- `base64.urlsafe_b64decode`: characters outside the accepted
alphabet are discarded before the quad/padding decode, which fails on a
leftover that is not a multiple of four. -/
def b64Decode (s : List Char) : Option (List Nat) :=
  b64DecodeQuads (s.filter (fun c => (b64CharVal c).isSome || c = '='))

def isUtf8Cont (b : Nat) : Bool :=
  decide (128 ≤ b ∧ b < 192)

/-- Decode one multi-byte UTF-8 sequence headed by `b1`
(128 <= b1): the code point and the remaining bytes, or none for a
truncated, overlong, surrogate or out-of-range sequence. -/
def utf8Step (b1 : Nat) (rest : List Nat) : Option (Nat × List Nat) :=
  if 194 ≤ b1 ∧ b1 ≤ 223 then
    match rest with
    | b2 :: rest2 =>
        if isUtf8Cont b2 then some ((b1 - 192) * 64 + (b2 - 128), rest2) else none
    | _ => none
  else if 224 ≤ b1 ∧ b1 ≤ 239 then
    match rest with
    | b2 :: b3 :: rest3 =>
        if isUtf8Cont b2 && isUtf8Cont b3 then
          if 2048 ≤ (b1 - 224) * 4096 + (b2 - 128) * 64 + (b3 - 128) ∧
              ¬ (55296 ≤ (b1 - 224) * 4096 + (b2 - 128) * 64 + (b3 - 128) ∧
                 (b1 - 224) * 4096 + (b2 - 128) * 64 + (b3 - 128) ≤ 57343) then
            some ((b1 - 224) * 4096 + (b2 - 128) * 64 + (b3 - 128), rest3)
          else none
        else none
    | _ => none
  else if 240 ≤ b1 ∧ b1 ≤ 244 then
    match rest with
    | b2 :: b3 :: b4 :: rest4 =>
        if isUtf8Cont b2 && isUtf8Cont b3 && isUtf8Cont b4 then
          if 65536 ≤ (b1 - 240) * 262144 + (b2 - 128) * 4096 + (b3 - 128) * 64 + (b4 - 128) ∧
              (b1 - 240) * 262144 + (b2 - 128) * 4096 + (b3 - 128) * 64 + (b4 - 128) < 1114112 then
            some ((b1 - 240) * 262144 + (b2 - 128) * 4096 + (b3 - 128) * 64 + (b4 - 128), rest4)
          else none
        else none
    | _ => none
  else none

def utf8DecodeFuel : Nat → List Nat → Option (List Char)
  | _, [] => some []
  | 0, _ :: _ => none
  | fuel + 1, b1 :: rest =>
      if b1 < 128 then
        (utf8DecodeFuel fuel rest).map (fun cs => Char.ofNat b1 :: cs)
      else
        match utf8Step b1 rest with
        | some (cp, rest2) => (utf8DecodeFuel fuel rest2).map (fun cs => Char.ofNat cp :: cs)
        | none => none

/-- Strict UTF-8 decoding of a byte list (`bytes.decode()`): rejects
truncated sequences, overlong forms, surrogates and out-of-range code
points.  Each decoded character consumes at least one byte, so the
byte count bounds the recursion. -/
def utf8Decode (bytes : List Nat) : Option (List Char) :=
  utf8DecodeFuel bytes.length bytes

def isJsonWs (c : Char) : Bool :=
  c = ' ' || c = Char.ofNat 9 || c = Char.ofNat 10 || c = Char.ofNat 13

def skipWs : List Char → List Char
  | [] => []
  | c :: rest => if isJsonWs c then skipWs rest else c :: rest

/-- The low-surrogate half of an escaped surrogate pair: expects
`\uXXXX` with XXXX in the low-surrogate range and combines it with the
high surrogate `cp`. -/
def parseEscapeLowSur (cp : Nat) : List Char → Option (Char × List Char)
  | e2 :: u2 :: g1 :: g2 :: g3 :: g4 :: rest4 =>
      if e2 = bs ∧ u2 = 'u' then
        match hexDigitVal g1, hexDigitVal g2, hexDigitVal g3, hexDigitVal g4 with
        | some f1, some f2, some f3, some f4 =>
            if 56320 ≤ ((f1 * 16 + f2) * 16 + f3) * 16 + f4 ∧
                ((f1 * 16 + f2) * 16 + f3) * 16 + f4 ≤ 57343 then
              some (Char.ofNat (65536 + (cp - 55296) * 1024 +
                (((f1 * 16 + f2) * 16 + f3) * 16 + f4 - 56320)), rest4)
            else none
        | _, _, _, _ => none
      else none
  | _ => none

/-- A `\uXXXX` escape (the input begins after the `u`): a plain scalar,
or a high surrogate followed by its low surrogate; lone surrogates are
rejected. -/
def parseEscapeU : List Char → Option (Char × List Char)
  | h1 :: h2 :: h3 :: h4 :: rest3 =>
      match hexDigitVal h1, hexDigitVal h2, hexDigitVal h3, hexDigitVal h4 with
      | some d1, some d2, some d3, some d4 =>
          if 55296 ≤ ((d1 * 16 + d2) * 16 + d3) * 16 + d4 ∧
              ((d1 * 16 + d2) * 16 + d3) * 16 + d4 ≤ 56319 then
            parseEscapeLowSur (((d1 * 16 + d2) * 16 + d3) * 16 + d4) rest3
          else if 56320 ≤ ((d1 * 16 + d2) * 16 + d3) * 16 + d4 ∧
              ((d1 * 16 + d2) * 16 + d3) * 16 + d4 ≤ 57343 then none
          else some (Char.ofNat (((d1 * 16 + d2) * 16 + d3) * 16 + d4), rest3)
      | _, _, _, _ => none
  | _ => none

/-- One JSON escape sequence (the input begins after the backslash):
the decoded character and the rest of the input. -/
def parseEscape : List Char → Option (Char × List Char)
  | [] => none
  | e :: rest =>
      if e = qu ∨ e = bs ∨ e = '/' then some (e, rest)
      else if e = 'n' then some (Char.ofNat 10, rest)
      else if e = 'r' then some (Char.ofNat 13, rest)
      else if e = 't' then some (Char.ofNat 9, rest)
      else if e = 'b' then some (Char.ofNat 8, rest)
      else if e = 'f' then some (Char.ofNat 12, rest)
      else if e = 'u' then parseEscapeU rest
      else none

def parseJsonStringBodyFuel : Nat → List Char → Option (List Char × List Char)
  | 0, _ => none
  | _ + 1, [] => none
  | fuel + 1, c :: rest =>
      if c = qu then some ([], rest)
      else if c = bs then
        match parseEscape rest with
        | some (ch, rest2) =>
            (parseJsonStringBodyFuel fuel rest2).map (fun p => (ch :: p.1, p.2))
        | none => none
      else if c.toNat < 32 then none
      else (parseJsonStringBodyFuel fuel rest).map (fun p => (c :: p.1, p.2))

/-- JSON string-literal body parser (after the opening quote): returns
the decoded content and the input following the closing quote.  Each
produced character consumes at least one input character, so the input
length bounds the recursion. -/
def parseJsonStringBody (input : List Char) : Option (List Char × List Char) :=
  parseJsonStringBodyFuel input.length input

/-- The pair list of a JSON object of string fields: `"key":"value"`
pairs separated by commas, closed by the closing brace.  `fuel` bounds
the number of pairs (the caller passes more than the input length). -/
def parseJsonPairsFuel : Nat → List Char → Option (List (List Char × List Char) × List Char)
  | 0, _ => none
  | fuel + 1, input =>
      match skipWs input with
      | [] => none
      | c :: rest =>
          if c = qu then
            match parseJsonStringBody rest with
            | some (key, r1) =>
                match skipWs r1 with
                | [] => none
                | c1 :: r2 =>
                    if c1 = ':' then
                      match skipWs r2 with
                      | [] => none
                      | c2 :: r3 =>
                          if c2 = qu then
                            match parseJsonStringBody r3 with
                            | some (value, r4) =>
                                match skipWs r4 with
                                | [] => none
                                | c3 :: r5 =>
                                    if c3 = ',' then
                                      match parseJsonPairsFuel fuel r5 with
                                      | some (pairs, r6) => some ((key, value) :: pairs, r6)
                                      | none => none
                                    else if c3 = cbr then some ([(key, value)], r5)
                                    else none
                            | none => none
                          else none
                    else none
            | none => none
          else none

/-- `json.loads` for the flat string-object payloads of the cursor
codec: an object whose values are string literals, with nothing but
whitespace after it. -/
def parseJsonObject (input : List Char) : Option (List (List Char × List Char)) :=
  match skipWs input with
  | [] => none
  | c :: rest =>
      if c = obr then
        match skipWs rest with
        | [] => none
        | c2 :: rest2 =>
            if c2 = cbr then
              if (skipWs rest2).isEmpty then some [] else none
            else
              match parseJsonPairsFuel (rest.length + 1) rest with
              | some (pairs, r) => if (skipWs r).isEmpty then some pairs else none
              | none => none
      else none

/-- Python dict semantics for repeated keys: the last occurrence wins. -/
def dictLookup (k : List Char) (ps : List (List Char × List Char)) : Option (List Char) :=
  ((ps.filter (fun p => p.1 = k)).getLast?).map (fun p => p.2)

/-- `PaginationCursor(**cursor_data)`: requires every key to be a field
name, `timestamp` and `record_id` to be present, and defaults
`direction` to "forward". -/
def cursorFromPairs (ps : List (List Char × List Char)) : Option PaginationCursor :=
  if ps.all (fun p => p.1 = "timestamp".data ∨ p.1 = "record_id".data ∨ p.1 = "direction".data) then
    match dictLookup "timestamp".data ps, dictLookup "record_id".data ps with
    | some t, some r =>
        some ⟨String.mk t, String.mk r,
              String.mk ((dictLookup "direction".data ps).getD "forward".data)⟩
    | _, _ => none
  else none

/-- Embeds `PaginationCursor.encode` (pagination.py 32-40). -/
def PaginationCursor.encode (c : PaginationCursor) : String :=
  String.mk (b64Encode (strBytes (renderCursorJson c)))

/-- Embeds `PaginationCursor.decode` (pagination.py 42-51): every
failure along base64, UTF-8, JSON or construction collapses into the
one typed invalid-cursor error. -/
def PaginationCursor.decode (s : String) : Except CursorError PaginationCursor :=
  match b64Decode s.data with
  | none => Except.error CursorError.invalidCursor
  | some bytes =>
      match utf8Decode bytes with
      | none => Except.error CursorError.invalidCursor
      | some chars =>
          match parseJsonObject chars with
          | none => Except.error CursorError.invalidCursor
          | some pairs =>
              match cursorFromPairs pairs with
              | some c => Except.ok c
              | none => Except.error CursorError.invalidCursor

/-! ### Codec inversion lemmas -/

theorem b64CharVal_b64Char : ∀ s : Nat, s < 64 → b64CharVal (b64Char s) = some s := by
  decide

theorem b64Char_ne_pad : ∀ s : Nat, s < 64 → b64Char s ≠ '=' := by
  decide

theorem b64Char_pass : ∀ s : Nat, s < 64 →
    ((b64CharVal (b64Char s)).isSome || b64Char s = '=') = true := by
  decide

theorem hexDigitVal_hexDigitChar : ∀ d : Nat, d < 16 → hexDigitVal (hexDigitChar d) = some d := by
  decide

theorem b64Encode_chars (n : Nat) : ∀ bytes : List Nat, bytes.length ≤ n →
    (∀ b ∈ bytes, b < 256) →
    ∀ ch ∈ b64Encode bytes, ((b64CharVal ch).isSome || ch = '=') = true := by
  induction n with
  | zero =>
      intro bytes hlen h ch hch
      cases bytes with
      | nil => simp [b64Encode] at hch
      | cons b t => simp at hlen
  | succ n ih =>
      intro bytes hlen h ch hch
      cases bytes with
      | nil => simp [b64Encode] at hch
      | cons b1 t1 =>
          cases t1 with
          | nil =>
              have hb1 := h b1 (by simp)
              simp only [b64Encode, List.mem_cons, List.not_mem_nil, or_false] at hch
              rcases hch with rfl | rfl | rfl | rfl
              · exact b64Char_pass _ (by omega)
              · exact b64Char_pass _ (by omega)
              · simp
              · simp
          | cons b2 t2 =>
              cases t2 with
              | nil =>
                  have hb1 := h b1 (by simp)
                  have hb2 := h b2 (by simp)
                  simp only [b64Encode, List.mem_cons, List.not_mem_nil, or_false] at hch
                  rcases hch with rfl | rfl | rfl | rfl
                  · exact b64Char_pass _ (by omega)
                  · exact b64Char_pass _ (by omega)
                  · exact b64Char_pass _ (by omega)
                  · simp
              | cons b3 rest =>
                  have hb1 := h b1 (by simp)
                  have hb2 := h b2 (by simp)
                  have hb3 := h b3 (by simp)
                  simp only [b64Encode, List.mem_cons] at hch
                  rcases hch with rfl | rfl | rfl | rfl | hch
                  · exact b64Char_pass _ (by omega)
                  · exact b64Char_pass _ (by omega)
                  · exact b64Char_pass _ (by omega)
                  · exact b64Char_pass _ (by omega)
                  · exact ih rest (by simp at hlen; omega)
                      (fun b hb => h b (by simp [hb])) ch hch

theorem b64DecodeQuads_b64Encode (n : Nat) : ∀ bytes : List Nat, bytes.length ≤ n →
    (∀ b ∈ bytes, b < 256) → b64DecodeQuads (b64Encode bytes) = some bytes := by
  induction n with
  | zero =>
      intro bytes hlen h
      cases bytes with
      | nil => rfl
      | cons b t => simp at hlen
  | succ n ih =>
      intro bytes hlen h
      cases bytes with
      | nil => rfl
      | cons b1 t1 =>
          cases t1 with
          | nil =>
              have hb1 := h b1 (by simp)
              simp only [b64Encode, b64DecodeQuads,
                b64CharVal_b64Char _ (by omega : b1 / 4 < 64),
                b64CharVal_b64Char _ (by omega : b1 % 4 * 16 < 64)]
              simp
              omega
          | cons b2 t2 =>
              cases t2 with
              | nil =>
                  have hb1 := h b1 (by simp)
                  have hb2 := h b2 (by simp)
                  simp only [b64Encode, b64DecodeQuads,
                    b64CharVal_b64Char _ (by omega : b1 / 4 < 64),
                    b64CharVal_b64Char _ (by omega : b1 % 4 * 16 + b2 / 16 < 64),
                    b64CharVal_b64Char _ (by omega : b2 % 16 * 4 < 64)]
                  rw [if_neg (b64Char_ne_pad _ (by omega : b2 % 16 * 4 < 64))]
                  simp
                  omega
              | cons b3 rest =>
                  have hb1 := h b1 (by simp)
                  have hb2 := h b2 (by simp)
                  have hb3 := h b3 (by simp)
                  have hrest : b64DecodeQuads (b64Encode rest) = some rest :=
                    ih rest (by simp at hlen; omega) (fun b hb => h b (by simp [hb]))
                  simp only [b64Encode, b64DecodeQuads,
                    b64CharVal_b64Char _ (by omega : b1 / 4 < 64),
                    b64CharVal_b64Char _ (by omega : b1 % 4 * 16 + b2 / 16 < 64),
                    b64CharVal_b64Char _ (by omega : b2 % 16 * 4 + b3 / 64 < 64),
                    b64CharVal_b64Char _ (by omega : b3 % 64 < 64), hrest]
                  rw [if_neg (b64Char_ne_pad _ (by omega : b2 % 16 * 4 + b3 / 64 < 64)),
                    if_neg (b64Char_ne_pad _ (by omega : b3 % 64 < 64))]
                  simp
                  omega

theorem b64Decode_b64Encode (bytes : List Nat) (h : ∀ b ∈ bytes, b < 256) :
    b64Decode (b64Encode bytes) = some bytes := by
  unfold b64Decode
  rw [List.filter_eq_self.mpr (b64Encode_chars bytes.length bytes (le_refl _) h)]
  exact b64DecodeQuads_b64Encode bytes.length bytes (le_refl _) h

theorem hexDigitChar_ascii : ∀ d : Nat, d < 16 → (hexDigitChar d).toNat < 128 := by
  decide

theorem uEscape_ascii (cp : Nat) : ∀ x ∈ uEscape cp, x.toNat < 128 := by
  intro x hx
  simp only [uEscape, List.mem_cons, List.not_mem_nil, or_false] at hx
  rcases hx with rfl | rfl | rfl | rfl | rfl | rfl
  · decide
  · decide
  · exact hexDigitChar_ascii _ (Nat.mod_lt _ (by norm_num))
  · exact hexDigitChar_ascii _ (Nat.mod_lt _ (by norm_num))
  · exact hexDigitChar_ascii _ (Nat.mod_lt _ (by norm_num))
  · exact hexDigitChar_ascii _ (Nat.mod_lt _ (by norm_num))

theorem jsonEscapeChar_ascii (c : Char) : ∀ x ∈ jsonEscapeChar c, x.toNat < 128 := by
  intro x hx
  unfold jsonEscapeChar at hx
  split_ifs at hx with h1 h2 h3 h4 h5 h6 h7 h8 h9
  · simp only [List.mem_cons, List.not_mem_nil, or_false] at hx
    rcases hx with rfl | rfl <;> decide
  · simp only [List.mem_cons, List.not_mem_nil, or_false] at hx
    rcases hx with rfl | rfl <;> decide
  · simp only [List.mem_cons, List.not_mem_nil, or_false] at hx
    rcases hx with rfl | rfl <;> decide
  · simp only [List.mem_cons, List.not_mem_nil, or_false] at hx
    rcases hx with rfl | rfl <;> decide
  · simp only [List.mem_cons, List.not_mem_nil, or_false] at hx
    rcases hx with rfl | rfl <;> decide
  · simp only [List.mem_cons, List.not_mem_nil, or_false] at hx
    rcases hx with rfl | rfl <;> decide
  · simp only [List.mem_cons, List.not_mem_nil, or_false] at hx
    rcases hx with rfl | rfl <;> decide
  · simp only [List.mem_cons, List.not_mem_nil, or_false] at hx
    subst hx
    omega
  · exact uEscape_ascii _ x hx
  · rcases List.mem_append.mp hx with hx | hx
    · exact uEscape_ascii _ x hx
    · exact uEscape_ascii _ x hx

theorem jsonEscapeString_ascii (s : List Char) : ∀ x ∈ jsonEscapeString s, x.toNat < 128 := by
  induction s with
  | nil => intro x hx; cases hx
  | cons c rest ih =>
      intro x hx
      rw [jsonEscapeString] at hx
      rcases List.mem_append.mp hx with hx | hx
      · exact jsonEscapeChar_ascii c x hx
      · exact ih x hx

theorem renderStringLit_ascii (s rest : List Char) (hrest : ∀ x ∈ rest, x.toNat < 128) :
    ∀ x ∈ renderStringLit s rest, x.toNat < 128 := by
  intro x hx
  rw [renderStringLit] at hx
  rcases List.mem_cons.mp hx with rfl | hx
  · decide
  · rcases List.mem_append.mp hx with hx | hx
    · exact jsonEscapeString_ascii s x hx
    · rcases List.mem_cons.mp hx with rfl | hx
      · decide
      · exact hrest x hx

theorem renderCursorJson_ascii (c : PaginationCursor) :
    ∀ x ∈ renderCursorJson c, x.toNat < 128 := by
  intro x hx
  rw [renderCursorJson] at hx
  rcases List.mem_cons.mp hx with rfl | hx
  · decide
  · refine renderStringLit_ascii _ _ ?_ x hx
    intro y hy
    rcases List.mem_cons.mp hy with rfl | hy
    · decide
    · refine renderStringLit_ascii _ _ ?_ y hy
      intro z hz
      rcases List.mem_cons.mp hz with rfl | hz
      · decide
      · refine renderStringLit_ascii _ _ ?_ z hz
        intro w hw
        rcases List.mem_cons.mp hw with rfl | hw
        · decide
        · refine renderStringLit_ascii _ _ ?_ w hw
          intro v hv
          rcases List.mem_cons.mp hv with rfl | hv
          · decide
          · refine renderStringLit_ascii _ _ ?_ v hv
            intro u hu
            rcases List.mem_cons.mp hu with rfl | hu
            · decide
            · refine renderStringLit_ascii _ _ ?_ u hu
              intro q hq
              rcases List.mem_cons.mp hq with rfl | hq
              · decide
              · cases hq

theorem utf8DecodeFuel_ascii (s : List Char) : ∀ fuel : Nat, s.length ≤ fuel →
    (∀ x ∈ s, x.toNat < 128) → utf8DecodeFuel fuel (strBytes s) = some s := by
  induction s with
  | nil =>
      intro fuel _ _
      cases fuel <;> rfl
  | cons c rest ih =>
      intro fuel hlen h
      cases fuel with
      | zero => simp at hlen
      | succ f =>
          have hc : c.toNat < 128 := h c (List.mem_cons_self _ _)
          have ih2 := ih f (by simp at hlen; omega) (fun x hx => h x (List.mem_cons_of_mem _ hx))
          show utf8DecodeFuel (f + 1) (Char.toNat c :: strBytes rest) = some (c :: rest)
          rw [utf8DecodeFuel, if_pos hc, ih2, Option.map_some', Char.ofNat_toNat]

theorem utf8Decode_ascii (s : List Char) (h : ∀ x ∈ s, x.toNat < 128) :
    utf8Decode (strBytes s) = some s := by
  unfold utf8Decode
  exact utf8DecodeFuel_ascii s (strBytes s).length (by simp [strBytes]) h

theorem parseEscape_qu (rest : List Char) : parseEscape (qu :: rest) = some (qu, rest) := by
  simp only [parseEscape]
  rw [if_pos (by decide)]

theorem parseEscape_bs (rest : List Char) : parseEscape (bs :: rest) = some (bs, rest) := by
  simp only [parseEscape]
  rw [if_pos (by decide)]

theorem parseEscape_n (rest : List Char) :
    parseEscape ('n' :: rest) = some (Char.ofNat 10, rest) := by
  simp only [parseEscape]
  rw [if_neg (by decide), if_pos (by decide)]

theorem parseEscape_r (rest : List Char) :
    parseEscape ('r' :: rest) = some (Char.ofNat 13, rest) := by
  simp only [parseEscape]
  rw [if_neg (by decide), if_neg (by decide), if_pos (by decide)]

theorem parseEscape_t (rest : List Char) :
    parseEscape ('t' :: rest) = some (Char.ofNat 9, rest) := by
  simp only [parseEscape]
  rw [if_neg (by decide), if_neg (by decide), if_neg (by decide), if_pos (by decide)]

theorem parseEscape_b (rest : List Char) :
    parseEscape ('b' :: rest) = some (Char.ofNat 8, rest) := by
  simp only [parseEscape]
  rw [if_neg (by decide), if_neg (by decide), if_neg (by decide), if_neg (by decide),
    if_pos (by decide)]

theorem parseEscape_f (rest : List Char) :
    parseEscape ('f' :: rest) = some (Char.ofNat 12, rest) := by
  simp only [parseEscape]
  rw [if_neg (by decide), if_neg (by decide), if_neg (by decide), if_neg (by decide),
    if_neg (by decide), if_pos (by decide)]

theorem hexDigitVal_hexDigitChar_mod (x : Nat) :
    hexDigitVal (hexDigitChar (x % 16)) = some (x % 16) :=
  hexDigitVal_hexDigitChar _ (Nat.mod_lt _ (by norm_num))

theorem parseEscape_u (t : Nat) (ht : t < 65536) (hs : ¬ (55296 ≤ t ∧ t ≤ 57343))
    (rest : List Char) :
    parseEscape ('u' :: hexDigitChar (t / 4096 % 16) :: hexDigitChar (t / 256 % 16) ::
        hexDigitChar (t / 16 % 16) :: hexDigitChar (t % 16) :: rest)
      = some (Char.ofNat t, rest) := by
  simp only [parseEscape]
  rw [if_neg (by decide), if_neg (by decide), if_neg (by decide), if_neg (by decide),
    if_neg (by decide), if_neg (by decide), if_pos (by decide)]
  simp only [parseEscapeU, hexDigitVal_hexDigitChar_mod]
  have hcp : ((t / 4096 % 16 * 16 + t / 256 % 16) * 16 + t / 16 % 16) * 16 + t % 16 = t := by
    omega
  rw [hcp, if_neg (by omega), if_neg (by omega)]

theorem parseEscapeLowSur_eval (cp lo : Nat) (hlo1 : 56320 ≤ lo) (hlo2 : lo ≤ 57343)
    (rest : List Char) :
    parseEscapeLowSur cp (bs :: 'u' :: hexDigitChar (lo / 4096 % 16) ::
        hexDigitChar (lo / 256 % 16) :: hexDigitChar (lo / 16 % 16) ::
        hexDigitChar (lo % 16) :: rest)
      = some (Char.ofNat (65536 + (cp - 55296) * 1024 + (lo - 56320)), rest) := by
  simp only [parseEscapeLowSur, hexDigitVal_hexDigitChar_mod, and_self, if_true]
  have hcp : ((lo / 4096 % 16 * 16 + lo / 256 % 16) * 16 + lo / 16 % 16) * 16 + lo % 16
      = lo := by omega
  rw [hcp, if_pos (by omega)]

theorem parseEscapeU_pair_eval (hi lo : Nat) (hhi1 : 55296 ≤ hi) (hhi2 : hi ≤ 56319)
    (hlo1 : 56320 ≤ lo) (hlo2 : lo ≤ 57343) (rest : List Char) :
    parseEscapeU (hexDigitChar (hi / 4096 % 16) :: hexDigitChar (hi / 256 % 16) ::
        hexDigitChar (hi / 16 % 16) :: hexDigitChar (hi % 16) ::
        bs :: 'u' :: hexDigitChar (lo / 4096 % 16) :: hexDigitChar (lo / 256 % 16) ::
        hexDigitChar (lo / 16 % 16) :: hexDigitChar (lo % 16) :: rest)
      = some (Char.ofNat (65536 + (hi - 55296) * 1024 + (lo - 56320)), rest) := by
  simp only [parseEscapeU, hexDigitVal_hexDigitChar_mod]
  have hcp : ((hi / 4096 % 16 * 16 + hi / 256 % 16) * 16 + hi / 16 % 16) * 16 + hi % 16
      = hi := by omega
  rw [hcp, if_pos (by omega)]
  exact parseEscapeLowSur_eval hi lo hlo1 hlo2 rest

theorem parseEscape_u_pair (t : Nat) (ht : 65536 ≤ t) (ht2 : t < 1114112) (rest : List Char) :
    parseEscape ('u' :: hexDigitChar ((55296 + (t - 65536) / 1024) / 4096 % 16) ::
        hexDigitChar ((55296 + (t - 65536) / 1024) / 256 % 16) ::
        hexDigitChar ((55296 + (t - 65536) / 1024) / 16 % 16) ::
        hexDigitChar ((55296 + (t - 65536) / 1024) % 16) ::
        bs :: 'u' :: hexDigitChar ((56320 + (t - 65536) % 1024) / 4096 % 16) ::
        hexDigitChar ((56320 + (t - 65536) % 1024) / 256 % 16) ::
        hexDigitChar ((56320 + (t - 65536) % 1024) / 16 % 16) ::
        hexDigitChar ((56320 + (t - 65536) % 1024) % 16) :: rest)
      = some (Char.ofNat t, rest) := by
  simp only [parseEscape]
  rw [if_neg (by decide), if_neg (by decide), if_neg (by decide), if_neg (by decide),
    if_neg (by decide), if_neg (by decide), if_pos (by decide)]
  rw [parseEscapeU_pair_eval (55296 + (t - 65536) / 1024) (56320 + (t - 65536) % 1024)
    (by omega) (by omega) (by omega) (by omega) rest]
  have hfin : 65536 + (55296 + (t - 65536) / 1024 - 55296) * 1024 +
      (56320 + (t - 65536) % 1024 - 56320) = t := by omega
  rw [hfin]

theorem char_toNat_valid (c : Char) : c.toNat < 55296 ∨ (57343 < c.toNat ∧ c.toNat < 1114112) := by
  have h := c.valid
  have h2 : c.toNat = c.val.toNat := rfl
  unfold UInt32.isValidChar Nat.isValidChar at h
  omega

theorem parseFuel_jsonEscapeChar (c : Char) (rest p r : List Char) (fuel : Nat)
    (hb : parseJsonStringBodyFuel fuel rest = some (p, r)) :
    parseJsonStringBodyFuel (fuel + 1) (jsonEscapeChar c ++ rest) = some (c :: p, r) := by
  unfold jsonEscapeChar
  split_ifs with h1 h2 h3 h4 h5 h6 h7 h8 h9
  · subst h1
    show parseJsonStringBodyFuel (fuel + 1) (bs :: qu :: rest) = some (qu :: p, r)
    rw [parseJsonStringBodyFuel, if_neg (by decide : ¬ (bs = qu)), if_pos (rfl : bs = bs),
      parseEscape_qu]
    simp only [hb, Option.map_some']
  · subst h2
    show parseJsonStringBodyFuel (fuel + 1) (bs :: bs :: rest) = some (bs :: p, r)
    rw [parseJsonStringBodyFuel, if_neg (by decide : ¬ (bs = qu)), if_pos (rfl : bs = bs),
      parseEscape_bs]
    simp only [hb, Option.map_some']
  · subst h3
    show parseJsonStringBodyFuel (fuel + 1) (bs :: 'n' :: rest) = some (Char.ofNat 10 :: p, r)
    rw [parseJsonStringBodyFuel, if_neg (by decide : ¬ (bs = qu)), if_pos (rfl : bs = bs),
      parseEscape_n]
    simp only [hb, Option.map_some']
  · subst h4
    show parseJsonStringBodyFuel (fuel + 1) (bs :: 'r' :: rest) = some (Char.ofNat 13 :: p, r)
    rw [parseJsonStringBodyFuel, if_neg (by decide : ¬ (bs = qu)), if_pos (rfl : bs = bs),
      parseEscape_r]
    simp only [hb, Option.map_some']
  · subst h5
    show parseJsonStringBodyFuel (fuel + 1) (bs :: 't' :: rest) = some (Char.ofNat 9 :: p, r)
    rw [parseJsonStringBodyFuel, if_neg (by decide : ¬ (bs = qu)), if_pos (rfl : bs = bs),
      parseEscape_t]
    simp only [hb, Option.map_some']
  · subst h6
    show parseJsonStringBodyFuel (fuel + 1) (bs :: 'b' :: rest) = some (Char.ofNat 8 :: p, r)
    rw [parseJsonStringBodyFuel, if_neg (by decide : ¬ (bs = qu)), if_pos (rfl : bs = bs),
      parseEscape_b]
    simp only [hb, Option.map_some']
  · subst h7
    show parseJsonStringBodyFuel (fuel + 1) (bs :: 'f' :: rest) = some (Char.ofNat 12 :: p, r)
    rw [parseJsonStringBodyFuel, if_neg (by decide : ¬ (bs = qu)), if_pos (rfl : bs = bs),
      parseEscape_f]
    simp only [hb, Option.map_some']
  · show parseJsonStringBodyFuel (fuel + 1) (c :: rest) = some (c :: p, r)
    rw [parseJsonStringBodyFuel, if_neg h1, if_neg h2, if_neg (by omega : ¬ c.toNat < 32)]
    simp only [hb, Option.map_some']
  · show parseJsonStringBodyFuel (fuel + 1) (bs :: 'u' ::
        hexDigitChar (c.toNat / 4096 % 16) :: hexDigitChar (c.toNat / 256 % 16) ::
        hexDigitChar (c.toNat / 16 % 16) :: hexDigitChar (c.toNat % 16) :: rest)
      = some (c :: p, r)
    rw [parseJsonStringBodyFuel, if_neg (by decide : ¬ (bs = qu)), if_pos (rfl : bs = bs),
      parseEscape_u c.toNat h9 (by have := char_toNat_valid c; omega) rest]
    simp only [hb, Option.map_some', Char.ofNat_toNat]
  · show parseJsonStringBodyFuel (fuel + 1) (bs :: 'u' ::
        hexDigitChar ((55296 + (c.toNat - 65536) / 1024) / 4096 % 16) ::
        hexDigitChar ((55296 + (c.toNat - 65536) / 1024) / 256 % 16) ::
        hexDigitChar ((55296 + (c.toNat - 65536) / 1024) / 16 % 16) ::
        hexDigitChar ((55296 + (c.toNat - 65536) / 1024) % 16) ::
        bs :: 'u' :: hexDigitChar ((56320 + (c.toNat - 65536) % 1024) / 4096 % 16) ::
        hexDigitChar ((56320 + (c.toNat - 65536) % 1024) / 256 % 16) ::
        hexDigitChar ((56320 + (c.toNat - 65536) % 1024) / 16 % 16) ::
        hexDigitChar ((56320 + (c.toNat - 65536) % 1024) % 16) :: rest)
      = some (c :: p, r)
    rw [parseJsonStringBodyFuel, if_neg (by decide : ¬ (bs = qu)), if_pos (rfl : bs = bs),
      parseEscape_u_pair c.toNat (by omega) (by have := char_toNat_valid c; omega) rest]
    simp only [hb, Option.map_some', Char.ofNat_toNat]

theorem parseJsonStringBodyFuel_render (s : List Char) : ∀ fuel : Nat, s.length + 1 ≤ fuel →
    ∀ rest : List Char,
    parseJsonStringBodyFuel fuel (jsonEscapeString s ++ qu :: rest) = some (s, rest) := by
  induction s with
  | nil =>
      intro fuel hf rest
      cases fuel with
      | zero => omega
      | succ f =>
          simp [jsonEscapeString, parseJsonStringBodyFuel]
  | cons c t ih =>
      intro fuel hf rest
      cases fuel with
      | zero => omega
      | succ f =>
          simp only [jsonEscapeString, List.append_assoc]
          exact parseFuel_jsonEscapeChar c _ t rest f
            (ih f (by simp at hf; omega) rest)

theorem jsonEscapeChar_length (c : Char) : 1 ≤ (jsonEscapeChar c).length := by
  unfold jsonEscapeChar
  split_ifs <;> simp [uEscape]

theorem jsonEscapeString_length (s : List Char) :
    s.length ≤ (jsonEscapeString s).length := by
  induction s with
  | nil => simp [jsonEscapeString]
  | cons c t ih =>
      have := jsonEscapeChar_length c
      simp only [jsonEscapeString, List.length_append, List.length_cons]
      omega

theorem parseJsonStringBody_render (s rest : List Char) :
    parseJsonStringBody (jsonEscapeString s ++ qu :: rest) = some (s, rest) := by
  unfold parseJsonStringBody
  apply parseJsonStringBodyFuel_render
  have := jsonEscapeString_length s
  simp only [List.length_append, List.length_cons]
  omega

theorem skipWs_not_ws (c : Char) (rest : List Char) (h : isJsonWs c = false) :
    skipWs (c :: rest) = c :: rest := by
  rw [skipWs, if_neg (by simp [h])]

theorem skipWs_qu (rest : List Char) : skipWs (qu :: rest) = qu :: rest :=
  skipWs_not_ws qu rest (by decide)

theorem skipWs_colon (rest : List Char) : skipWs (':' :: rest) = ':' :: rest :=
  skipWs_not_ws ':' rest (by decide)

theorem skipWs_comma (rest : List Char) : skipWs (',' :: rest) = ',' :: rest :=
  skipWs_not_ws ',' rest (by decide)

theorem skipWs_cbr (rest : List Char) : skipWs (cbr :: rest) = cbr :: rest :=
  skipWs_not_ws cbr rest (by decide)

theorem skipWs_obr (rest : List Char) : skipWs (obr :: rest) = obr :: rest :=
  skipWs_not_ws obr rest (by decide)

theorem parseJsonPairsFuel_last (fuel : Nat) (k v rest : List Char) :
    parseJsonPairsFuel (fuel + 1) (renderStringLit k (':' :: renderStringLit v (cbr :: rest)))
      = some ([(k, v)], rest) := by
  have e2 : (cbr = ',') = False := by decide
  simp only [renderStringLit, parseJsonPairsFuel, skipWs_qu, skipWs_colon, skipWs_cbr,
    parseJsonStringBody_render, eq_self_iff_true, if_true, e2, if_false]

theorem parseJsonPairsFuel_cons (fuel : Nat) (k v tail : List Char)
    (ps : List (List Char × List Char)) (r6 : List Char)
    (h : parseJsonPairsFuel fuel tail = some (ps, r6)) :
    parseJsonPairsFuel (fuel + 1) (renderStringLit k (':' :: renderStringLit v (',' :: tail)))
      = some ((k, v) :: ps, r6) := by
  simp only [renderStringLit, parseJsonPairsFuel, skipWs_qu, skipWs_colon, skipWs_comma,
    parseJsonStringBody_render, eq_self_iff_true, if_true, h]

theorem parseJsonPairsFuel_threePairs (fuel : Nat) (hf : 3 ≤ fuel)
    (k1 v1 k2 v2 k3 v3 rest : List Char) :
    parseJsonPairsFuel fuel
      (renderStringLit k1 (':' :: renderStringLit v1 (',' ::
        renderStringLit k2 (':' :: renderStringLit v2 (',' ::
        renderStringLit k3 (':' :: renderStringLit v3 (cbr :: rest)))))))
      = some ([(k1, v1), (k2, v2), (k3, v3)], rest) := by
  obtain ⟨f, rfl⟩ : ∃ f, fuel = f + 3 := ⟨fuel - 3, by omega⟩
  exact parseJsonPairsFuel_cons (f + 2) k1 v1 _ _ _
    (parseJsonPairsFuel_cons (f + 1) k2 v2 _ _ _
      (parseJsonPairsFuel_last f k3 v3 rest))

theorem skipWs_nil : skipWs [] = [] := rfl

theorem parseJsonObject_render (c : PaginationCursor) :
    parseJsonObject (renderCursorJson c)
      = some [("timestamp".data, c.timestamp.data), ("record_id".data, c.record_id.data),
              ("direction".data, c.direction.data)] := by
  have h3 := parseJsonPairsFuel_threePairs
      ((renderStringLit "timestamp".data (':' :: renderStringLit c.timestamp.data (',' ::
        renderStringLit "record_id".data (':' :: renderStringLit c.record_id.data (',' ::
        renderStringLit "direction".data (':' :: renderStringLit c.direction.data
          [cbr])))))).length + 1)
      (by simp [renderStringLit]; omega)
      "timestamp".data c.timestamp.data "record_id".data c.record_id.data
      "direction".data c.direction.data []
  simp only [renderStringLit] at h3
  have e : (qu = cbr) = False := by decide
  simp only [renderCursorJson, renderStringLit, parseJsonObject, skipWs_obr, skipWs_qu,
    eq_self_iff_true, if_true, e, if_false, h3, skipWs_nil, List.isEmpty_nil]

theorem cursorFromPairs_render (c : PaginationCursor) :
    cursorFromPairs
        [(['t','i','m','e','s','t','a','m','p'], c.timestamp.data),
         (['r','e','c','o','r','d','_','i','d'], c.record_id.data),
         (['d','i','r','e','c','t','i','o','n'], c.direction.data)] = some c := by
  obtain ⟨⟨t⟩, ⟨r⟩, ⟨d⟩⟩ := c
  simp +decide [cursorFromPairs, dictLookup]

theorem decode_encode (c : PaginationCursor) :
    PaginationCursor.decode (PaginationCursor.encode c) = Except.ok c := by
  have hbytes : ∀ b ∈ strBytes (renderCursorJson c), b < 256 := by
    intro b hb
    obtain ⟨x, hx, rfl⟩ := List.mem_map.mp hb
    have := renderCursorJson_ascii c x hx
    omega
  simp only [PaginationCursor.encode, PaginationCursor.decode,
    b64Decode_b64Encode _ hbytes, utf8Decode_ascii _ (renderCursorJson_ascii c),
    parseJsonObject_render, cursorFromPairs_render]

/-- C8: for every valid pagination cursor `c`, `decode (encode c) = ok c`;
and `decode` is total on arbitrary strings, returning either a decoded
cursor or the one typed invalid-cursor error (never an unhandled
failure), with two concrete corrupted inputs shown to produce the typed
error. -/
theorem cursor_roundtrip_total :
    (∀ c : PaginationCursor, PaginationCursor.decode (PaginationCursor.encode c) = Except.ok c)
    ∧ (∀ s : String, PaginationCursor.decode s = Except.error CursorError.invalidCursor ∨
        ∃ c, PaginationCursor.decode s = Except.ok c)
    ∧ PaginationCursor.decode "%%%not-base64%%%" = Except.error CursorError.invalidCursor
    ∧ PaginationCursor.decode "aGVsbG8=" = Except.error CursorError.invalidCursor := by
  refine ⟨decode_encode, ?_, ?_, ?_⟩
  · intro s
    rcases hd : PaginationCursor.decode s with e | c
    · cases e
      exact Or.inl rfl
    · exact Or.inr ⟨c, rfl⟩
  · rfl
  · rfl
